import Mathlib

/-!
# SPLVector3

A shallow embedding of `include/spl/vector3.hh` (the class template
`SPLVector3<T>` and its two non-member operators) together with the
properties of it that the specification states.

* The component type `T` of the template is a type parameter; each function
  asks only for the operations its C++ body uses.
* `SPLieee64` values live in a type `D`, an ordered field.  The macros
  `POW2`, `SQRT`, `ABS`, `EPS` and the numeric casts that occur in `square`,
  `length` and `normalize` are the fields of `Ieee T D`.
* `assert` is modelled by an explicit result: a `const` member returns
  `Except Assertion _`, a mutating member returns `Outcome _`, which carries
  the components of the receiver at the moment the run ended.
* The enumeration `m_SPLenum` of `include/spl/typesbase.hh` is embedded as
  one integer constant per enumerator.
-/

namespace SPL

/-- The `assert` statements of `vector3.hh`, one constructor per site. -/
inductive Assertion where
  /-- Site `assert (i >= 0 && i <= 2)` in `operator []`. -/
  | indexInRange
  /-- Site `assert (s != T(0))` in `operator /=`. -/
  | divisorNonZero
  /-- The first `assert(help >= double(0))` of `length`, before `SQRT`. -/
  | squareNonNeg
  /-- The second `assert(help >= double(0))` of `length`, after `SQRT`. -/
  | rootNonNeg
  /-- Site `assert(length > SPLieee64(0))`, the precondition of `normalize`. -/
  | targetPositive
  /-- Site `assert(ABS(this->length() - length) < SPLieee64(EPS))`, the
  postcondition of `normalize`. -/
  | lengthReached
  deriving DecidableEq

/-- How a run of a mutating member function ends: it returns (`done`), or an
assertion fails (`abort`).  Either way the components the receiver holds at
that moment are recorded. -/
inductive Outcome (α : Type) where
  | done (self : α)
  | abort (site : Assertion) (self : α)
  deriving DecidableEq

/-- The numeric environment of `square`, `length` and `normalize`: the macros
`POW2`, `SQRT`, `ABS`, `EPS` (their header is not among the sources) and the
casts between the component type `T` and `SPLieee64`, here `D`. -/
structure Ieee (T D : Type) where
  /-- Macro of `double xx = POW2(this->x)`: the macro applied to a component, as a
  double. -/
  POW2 : T → D
  /-- Macro `SQRT(help)`. -/
  SQRT : D → D
  /-- Macro `ABS(...)`. -/
  ABS : D → D
  /-- Macro `EPS`, as `SPLieee64(EPS)`. -/
  EPS : D
  /-- The cast `SPLieee64(this->x)`. -/
  widen : T → D
  /-- The cast `SPLieee32(...)` followed by the conversion to `T` of the
  assignment `this->x = SPLieee32(...)`. -/
  narrow : D → T

/-- The class `SPLVector3<T>`: the data members `x`, `y`, `z`. -/
structure SPLVector3 (T : Type) where
  x : T
  y : T
  z : T
  deriving DecidableEq

/-- Modelled from the spec: the class `SPLVector4<T>` of `spl/vector4.hh`,
which is not among the sources; an ordered tuple of four values of the scalar
type, named `x`, `y`, `z`, `w`. -/
structure SPLVector4 (T : Type) where
  x : T
  y : T
  z : T
  w : T
  deriving DecidableEq

/-- Modelled from the spec: the class `SPLMatrix4<T>` of `spl/matrix4.hh`,
which is not among the sources; an ordered tuple of four `SPLVector4<T>`
columns, named `x`, `y`, `z`, `w` as `operator * (SPLMatrix4, SPLVector3)`
reads them. -/
structure SPLMatrix4 (T : Type) where
  x : SPLVector4 T
  y : SPLVector4 T
  z : SPLVector4 T
  w : SPLVector4 T
  deriving DecidableEq

namespace SPLVector3

section Members

variable {T : Type}

/-- Constructor `SPLVector3(void)`: every component is `T(0)`. -/
def new [Zero T] : SPLVector3 T :=
  { x := 0, y := 0, z := 0 }

/-- Constructor `SPLVector3(const SPLVector3<T> &v)`. -/
def copy (v : SPLVector3 T) : SPLVector3 T :=
  { x := v.x, y := v.y, z := v.z }

/-- Constructor `SPLVector3(const SPLVector4<T> &v)`; `v.w` is discarded. -/
def ofVector4 (v : SPLVector4 T) : SPLVector3 T :=
  { x := v.x, y := v.y, z := v.z }

/-- Member `operator ==`. -/
def eq [DecidableEq T] (self v : SPLVector3 T) : Bool :=
  decide (self.x = v.x) && decide (self.y = v.y) && decide (self.z = v.z)

/-- Member `operator !=`. -/
def ne [DecidableEq T] (self v : SPLVector3 T) : Bool :=
  !(self.eq v)

/-- Unary `operator -`. -/
def neg [Neg T] (self : SPLVector3 T) : SPLVector3 T :=
  SPLVector3.mk (-self.x) (-self.y) (-self.z)

/-- Member `operator * (const SPLVector3<T> &v)`: the dot product. -/
def dot [Add T] [Mul T] (self v : SPLVector3 T) : T :=
  self.x * v.x + self.y * v.y + self.z * v.z

/-- Member `operator +=`; the result is the receiver afterwards. -/
def addAssign [Add T] (self v : SPLVector3 T) : SPLVector3 T :=
  let self := { self with x := self.x + v.x }
  let self := { self with y := self.y + v.y }
  let self := { self with z := self.z + v.z }
  self

/-- Member `operator -=`; the result is the receiver afterwards. -/
def subAssign [Sub T] (self v : SPLVector3 T) : SPLVector3 T :=
  let self := { self with x := self.x - v.x }
  let self := { self with y := self.y - v.y }
  let self := { self with z := self.z - v.z }
  self

/-- Member `operator *= (T s)`; the result is the receiver afterwards. -/
def mulAssign [Mul T] (self : SPLVector3 T) (s : T) : SPLVector3 T :=
  let self := { self with x := self.x * s }
  let self := { self with y := self.y * s }
  let self := { self with z := self.z * s }
  self

/-- Member `operator /= (T s)`: `assert (s != T(0))`, then the three divisions. -/
def divAssign [Zero T] [Div T] [DecidableEq T] (self : SPLVector3 T) (s : T) :
    Outcome (SPLVector3 T) :=
  if s ≠ 0 then
    let self := { self with x := self.x / s }
    let self := { self with y := self.y / s }
    let self := { self with z := self.z / s }
    Outcome.done self
  else
    Outcome.abort Assertion.divisorNonZero self

/-- Member `operator + (const SPLVector3<T> &v)`. -/
def add [Add T] (self v : SPLVector3 T) : SPLVector3 T :=
  let ret := copy self
  ret.addAssign v

/-- Binary `operator - (const SPLVector3<T> &v)`. -/
def sub [Sub T] (self v : SPLVector3 T) : SPLVector3 T :=
  let ret := copy self
  ret.subAssign v

/-- Member `operator * (T s)`. -/
def mul [Mul T] (self : SPLVector3 T) (s : T) : SPLVector3 T :=
  let ret := copy self
  ret.mulAssign s

/-- Member `operator / (T s)`: the copy `ret` is divided in place; the receiver is
`const`.  The run fails when the assertion of `ret /= s` does. -/
def div [Zero T] [Div T] [DecidableEq T] (self : SPLVector3 T) (s : T) :
    Except Assertion (SPLVector3 T) :=
  let ret := copy self
  match ret.divAssign s with
  | Outcome.done ret => Except.ok ret
  | Outcome.abort site _ => Except.error site

/-- Member `crossProduct(const SPLVector3<T> &v)`. -/
def crossProduct [Zero T] [Sub T] [Mul T] (self v : SPLVector3 T) : SPLVector3 T :=
  let ret : SPLVector3 T := new
  let ret := { ret with x := self.y * v.z - self.z * v.y }
  let ret := { ret with y := self.z * v.x - self.x * v.z }
  let ret := { ret with z := self.x * v.y - self.y * v.x }
  ret

end Members

section Metric

variable {T D : Type} [LinearOrderedField D]

/-- Member `square(void)`. -/
def square (E : Ieee T D) (self : SPLVector3 T) : D :=
  let xx := E.POW2 self.x
  let yy := E.POW2 self.y
  let zz := E.POW2 self.z
  xx + yy + zz

/-- Member `length(void)`, with its two assertions. -/
def length (E : Ieee T D) (self : SPLVector3 T) : Except Assertion D :=
  let help := self.square E
  if help ≥ 0 then
    let help := E.SQRT help
    if help ≥ 0 then
      Except.ok help
    else
      Except.error Assertion.rootNonNeg
  else
    Except.error Assertion.squareNonNeg

/-- Member `normalize(const SPLieee64 length)`, declared with the default argument
`1.0`: the precondition, the early return
for a length of exactly zero, the three assignments in order, and the
postcondition.  An assertion failing inside a call of `length()` ends the
run as well. -/
def normalize (E : Ieee T D) (self : SPLVector3 T) (length : D := 1) :
    Outcome (SPLVector3 T) :=
  if length > 0 then
    match self.length E with
    | Except.error site => Outcome.abort site self
    | Except.ok len =>
      if len = 0 then
        Outcome.done self
      else
        let self := { self with x := E.narrow (E.widen self.x * length / len) }
        let self := { self with y := E.narrow (E.widen self.y * length / len) }
        let self := { self with z := E.narrow (E.widen self.z * length / len) }
        match self.length E with
        | Except.error site => Outcome.abort site self
        | Except.ok len2 =>
          if E.ABS (len2 - length) < E.EPS then
            Outcome.done self
          else
            Outcome.abort Assertion.lengthReached self
  else
    Outcome.abort Assertion.targetPositive self

/-- Member `getNormalized(const SPLieee64 length)`, declared with the default
argument `1.0`: normalize a copy. -/
def getNormalized (E : Ieee T D) (self : SPLVector3 T) (length : D := 1) :
    Except Assertion (SPLVector3 T) :=
  let ret := copy self
  match ret.normalize E length with
  | Outcome.done ret => Except.ok ret
  | Outcome.abort site _ => Except.error site

end Metric

end SPLVector3

/-- The non-member `operator * (const T s, const SPLVector3<T> &v)`. -/
def scalarMul {T : Type} [Mul T] (s : T) (v : SPLVector3 T) : SPLVector3 T :=
  let ret := SPLVector3.mk (s * v.x) (s * v.y) (s * v.z)
  ret

/-- The non-member `operator * (const SPLMatrix4<T> &m, const SPLVector3<T> &v)`. -/
def matrixMul {T : Type} [Zero T] [Add T] [Mul T] (m : SPLMatrix4 T) (v : SPLVector3 T) :
    SPLVector3 T :=
  let ret : SPLVector3 T := SPLVector3.new
  let ret := { ret with x := m.x.x * v.x + m.y.x * v.y + m.z.x * v.z }
  let ret := { ret with y := m.x.y * v.x + m.y.y * v.y + m.z.y * v.z }
  let ret := { ret with z := m.x.z * v.x + m.y.z * v.y + m.z.z * v.z }
  ret

/-- Rounding of a number to the nearest integer, a tie going to the even
neighbour. -/
def roundHalfEven {D : Type} [LinearOrderedField D] [FloorRing D] (q : D) : ℤ :=
  if q - (⌊q⌋ : D) < 1 / 2 then
    ⌊q⌋
  else if 1 / 2 < q - (⌊q⌋ : D) then
    ⌊q⌋ + 1
  else if ⌊q⌋ % 2 = 0 then
    ⌊q⌋
  else
    ⌊q⌋ + 1

/-- The value a number takes in a binary floating-point format with a
significand of `p` bits and the least normal exponent `emin`: the nearest
number of the format, a tie going to the even significand.  Below
`2 ^ emin` the spacing stays that of the subnormal numbers.  The upper end of
the format, where the value would be infinite, is not represented. -/
def roundBinary {D : Type} [LinearOrderedField D] [FloorRing D] (p : ℕ) (emin : ℤ)
    (d : D) : D :=
  let e := max (Int.log 2 |d|) emin
  let ulp : D := 2 ^ (e - ((p : ℤ) - 1))
  (roundHalfEven (d / ulp) : D) * ulp

/-- Modelled from the spec: the macros `POW2` and `ABS`, whose header is not
among the sources, as the square and the absolute value, in the numeric
environment of a vector with floating-point components (`SPLVector3f`,
`SPLVector3d`).  The components and the `SPLieee64` intermediate values are
numbers of the ordered field `D` whose sums, products and quotients are
exact; the square root and the tolerance are given.  From the source: the
cast `SPLieee32(...)` that `normalize` applies before each assignment rounds
to single precision (`typedef float SPLieee32`: 24 bits, least normal
exponent `-126`). -/
def exactKind {D : Type} [LinearOrderedField D] [FloorRing D] (sqrt : D → D) (eps : D) :
    Ieee D D :=
  { POW2 := fun a => a * a
    SQRT := sqrt
    ABS := fun a => |a|
    EPS := eps
    widen := fun a => a
    narrow := fun d => roundBinary 24 (-126) d }

/-- Modelled from the spec: the macros `POW2` and `ABS`, whose header is not
among the sources, as the square of the component and the absolute value, in
the numeric environment of `SPLVector3i`, over doubles taken as numbers of
the ordered field `D`.  From the source: the cast to `SPLieee64` is the
inclusion of the integers, and the way back rounds to single precision, the
cast `SPLieee32(...)`, and then truncates toward zero, the conversion to
`SPLint32` of the assignment. -/
def int32Kind {D : Type} [LinearOrderedField D] [FloorRing D] (sqrt : D → D) (eps : D) :
    Ieee ℤ D :=
  { POW2 := fun a => ((a * a : ℤ) : D)
    SQRT := sqrt
    ABS := fun a => |a|
    EPS := eps
    widen := fun a => (a : D)
    narrow := fun d =>
      if 0 ≤ roundBinary 24 (-126) d then
        ⌊roundBinary 24 (-126) d⌋
      else
        ⌈roundBinary 24 (-126) d⌉ }

/-- Scalar kind `SPLuint8` (`typedef unsigned char SPLuint8`): the numbers
`0` to `255`.  Sums, differences, negations and products are taken modulo
`2^8`, as the conversion back to `unsigned char` does; the quotient is the
truncated one. -/
abbrev SPLuint8 : Type := Fin 256

/-- Member `operator [] (const SPLindex i)`, both overloads: the bounds
assertion, then `(&x)[i]`, the member `i` places after `x` in the order of
declaration `x`, `y`, `z`. -/
def SPLVector3.index {T : Type} (self : SPLVector3 T) (i : ℤ) : Except Assertion T :=
  if i ≥ 0 ∧ i ≤ 2 then
    if i = 0 then
      Except.ok self.x
    else if i = 1 then
      Except.ok self.y
    else
      Except.ok self.z
  else
    Except.error Assertion.indexInRange

/-- Member `operator = (const SPLVector3<T> &v)`; the result is the receiver
afterwards. -/
def SPLVector3.assign {T : Type} (self v : SPLVector3 T) : SPLVector3 T :=
  let self := { self with x := v.x }
  let self := { self with y := v.y }
  let self := { self with z := v.z }
  self

/-- Member `operator = (const SPLVector4<SPLieee64> &v)`: each component is
converted with `T(...)`, here `cast`, and `v.w` is discarded; the result is the
receiver afterwards. -/
def SPLVector3.assignVector4 {T D : Type} (cast : D → T) (self : SPLVector3 T)
    (v : SPLVector4 D) : SPLVector3 T :=
  let self := { self with x := cast v.x }
  let self := { self with y := cast v.y }
  let self := { self with z := cast v.z }
  self

/-- Modelled from the spec: the macro `POW2`, whose header is not among the
sources.  The spec has the squares of `square()` "computed and returned in a
fixed 64-bit floating precision regardless of T": the component is converted
to `SPLieee64` and multiplied with itself there. -/
def specPOW2 {T D : Type} [Mul D] (widen : T → D) (a : T) : D :=
  widen a * widen a

/-! ## The enumeration `m_SPLenum` of `typesbase.hh`

Every enumerator is a constant of its own.  An enumerator with an
initializer has the value of that expression, one without has the value of
the enumerator declared before it plus one. -/

/-- Constant `static const SPLint32 __SPL_ENUM_FIRST = 0x0FFF0000`. -/
def __SPL_ENUM_FIRST : ℤ := 0x0FFF0000

/-- Constant `static const SPLint32 __SPL_ENUM_RANGE = 0x00002000`. -/
def __SPL_ENUM_RANGE : ℤ := 0x00002000

/-- Enumerator `SPL_TYPE_MIN = __SPL_ENUM_FIRST + __SPL_ENUM_RANGE * 0`. -/
def SPL_TYPE_MIN : ℤ := __SPL_ENUM_FIRST + __SPL_ENUM_RANGE * 0

/-- Enumerator `SPL_FILEIO_MIN = __SPL_ENUM_FIRST + __SPL_ENUM_RANGE * 1`. -/
def SPL_FILEIO_MIN : ℤ := __SPL_ENUM_FIRST + __SPL_ENUM_RANGE * 1

/-- Enumerator `SPL_CAMERA_MIN = __SPL_ENUM_FIRST + __SPL_ENUM_RANGE * 2`. -/
def SPL_CAMERA_MIN : ℤ := __SPL_ENUM_FIRST + __SPL_ENUM_RANGE * 2

/-- Enumerator `SPL_MATERIAL_MIN = __SPL_ENUM_FIRST + __SPL_ENUM_RANGE * 3`. -/
def SPL_MATERIAL_MIN : ℤ := __SPL_ENUM_FIRST + __SPL_ENUM_RANGE * 3

/-- Enumerator `SPL_LIGHT_MIN = __SPL_ENUM_FIRST + __SPL_ENUM_RANGE * 4`. -/
def SPL_LIGHT_MIN : ℤ := __SPL_ENUM_FIRST + __SPL_ENUM_RANGE * 4

/-- Enumerator `SPL_TYPE_UINT8 = SPL_TYPE_MIN + 1`. -/
def SPL_TYPE_UINT8 : ℤ := SPL_TYPE_MIN + 1

/-- Enumerator `SPL_TYPE_INT8`, without initializer: one more than `SPL_TYPE_UINT8`. -/
def SPL_TYPE_INT8 : ℤ := SPL_TYPE_UINT8 + 1

/-- Enumerator `SPL_TYPE_UINT16`, without initializer: one more than `SPL_TYPE_INT8`. -/
def SPL_TYPE_UINT16 : ℤ := SPL_TYPE_INT8 + 1

/-- Enumerator `SPL_TYPE_INT16`, without initializer: one more than `SPL_TYPE_UINT16`. -/
def SPL_TYPE_INT16 : ℤ := SPL_TYPE_UINT16 + 1

/-- Enumerator `SPL_TYPE_UINT32`, without initializer: one more than `SPL_TYPE_INT16`. -/
def SPL_TYPE_UINT32 : ℤ := SPL_TYPE_INT16 + 1

/-- Enumerator `SPL_TYPE_INT32`, without initializer: one more than `SPL_TYPE_UINT32`. -/
def SPL_TYPE_INT32 : ℤ := SPL_TYPE_UINT32 + 1

/-- Enumerator `SPL_TYPE_UINT64`, without initializer: one more than `SPL_TYPE_INT32`. -/
def SPL_TYPE_UINT64 : ℤ := SPL_TYPE_INT32 + 1

/-- Enumerator `SPL_TYPE_INT64`, without initializer: one more than `SPL_TYPE_UINT64`. -/
def SPL_TYPE_INT64 : ℤ := SPL_TYPE_UINT64 + 1

/-- Enumerator `SPL_TYPE_IEEE32`, without initializer: one more than `SPL_TYPE_INT64`. -/
def SPL_TYPE_IEEE32 : ℤ := SPL_TYPE_INT64 + 1

/-- Enumerator `SPL_TYPE_IEEE64`, without initializer: one more than `SPL_TYPE_IEEE32`. -/
def SPL_TYPE_IEEE64 : ℤ := SPL_TYPE_IEEE32 + 1

/-- Enumerator `SPL_TYPE_IEEE128`, without initializer: one more than `SPL_TYPE_IEEE64`. -/
def SPL_TYPE_IEEE128 : ℤ := SPL_TYPE_IEEE64 + 1

/-- Enumerator `SPL_TYPE_VOIDP`, without initializer: one more than `SPL_TYPE_IEEE128`. -/
def SPL_TYPE_VOIDP : ℤ := SPL_TYPE_IEEE128 + 1

/-- Enumerator `SPL_TYPE_RGBA8`, without initializer: one more than `SPL_TYPE_VOIDP`. -/
def SPL_TYPE_RGBA8 : ℤ := SPL_TYPE_VOIDP + 1

/-- Enumerator `SPL_TYPE_RGBAf`, without initializer: one more than `SPL_TYPE_RGBA8`. -/
def SPL_TYPE_RGBAf : ℤ := SPL_TYPE_RGBA8 + 1

/-- Enumerator `SPL_TYPE_MAX`, without initializer: one more than `SPL_TYPE_RGBAf`. -/
def SPL_TYPE_MAX : ℤ := SPL_TYPE_RGBAf + 1

/-- Enumerator `SPL_FILEIO_PGM_ID = SPL_FILEIO_MIN + 1`. -/
def SPL_FILEIO_PGM_ID : ℤ := SPL_FILEIO_MIN + 1

/-- Enumerator `SPL_FILEIO_PPM_ID`, without initializer: one more than `SPL_FILEIO_PGM_ID`. -/
def SPL_FILEIO_PPM_ID : ℤ := SPL_FILEIO_PGM_ID + 1

/-- Enumerator `SPL_FILEIO_RAW_ID`, without initializer: one more than `SPL_FILEIO_PPM_ID`. -/
def SPL_FILEIO_RAW_ID : ℤ := SPL_FILEIO_PPM_ID + 1

/-- Enumerator `SPL_FILEIO_PNG_ID`, without initializer: one more than `SPL_FILEIO_RAW_ID`. -/
def SPL_FILEIO_PNG_ID : ℤ := SPL_FILEIO_RAW_ID + 1

/-- Enumerator `SPL_FILEIO_TIF_ID`, without initializer: one more than `SPL_FILEIO_PNG_ID`. -/
def SPL_FILEIO_TIF_ID : ℤ := SPL_FILEIO_PNG_ID + 1

/-- Enumerator `SPL_FILEIO_NII_ID`, without initializer: one more than `SPL_FILEIO_TIF_ID`. -/
def SPL_FILEIO_NII_ID : ℤ := SPL_FILEIO_TIF_ID + 1

/-- Enumerator `SPL_FILEIO_VTR_ID`, without initializer: one more than `SPL_FILEIO_NII_ID`. -/
def SPL_FILEIO_VTR_ID : ℤ := SPL_FILEIO_NII_ID + 1

/-- Enumerator `SPL_FILEIO_MAX`, without initializer: one more than `SPL_FILEIO_VTR_ID`. -/
def SPL_FILEIO_MAX : ℤ := SPL_FILEIO_VTR_ID + 1

/-- Enumerator `SPL_CAMERA_MATRIX_MODELVIEW = SPL_CAMERA_MIN + 1`. -/
def SPL_CAMERA_MATRIX_MODELVIEW : ℤ := SPL_CAMERA_MIN + 1

/-- Enumerator `SPL_CAMERA_MATRIX_ORTHO`, without initializer: one more than `SPL_CAMERA_MATRIX_MODELVIEW`. -/
def SPL_CAMERA_MATRIX_ORTHO : ℤ := SPL_CAMERA_MATRIX_MODELVIEW + 1

/-- Enumerator `SPL_CAMERA_MATRIX_FRUSTUM`, without initializer: one more than `SPL_CAMERA_MATRIX_ORTHO`. -/
def SPL_CAMERA_MATRIX_FRUSTUM : ℤ := SPL_CAMERA_MATRIX_ORTHO + 1

/-- Enumerator `SPL_CAMERA_MATRIX_VIEWPORT`, without initializer: one more than `SPL_CAMERA_MATRIX_FRUSTUM`. -/
def SPL_CAMERA_MATRIX_VIEWPORT : ℤ := SPL_CAMERA_MATRIX_FRUSTUM + 1

/-- Enumerator `SPL_CAMERA_MAX`, without initializer: one more than `SPL_CAMERA_MATRIX_VIEWPORT`. -/
def SPL_CAMERA_MAX : ℤ := SPL_CAMERA_MATRIX_VIEWPORT + 1

/-- Enumerator `SPL_MATERIAL_OPACITY = SPL_MATERIAL_MIN + 1`. -/
def SPL_MATERIAL_OPACITY : ℤ := SPL_MATERIAL_MIN + 1

/-- Enumerator `SPL_MATERIAL_EMISSION_RED`, without initializer: one more than `SPL_MATERIAL_OPACITY`. -/
def SPL_MATERIAL_EMISSION_RED : ℤ := SPL_MATERIAL_OPACITY + 1

/-- Enumerator `SPL_MATERIAL_EMISSION_GREEN`, without initializer: one more than `SPL_MATERIAL_EMISSION_RED`. -/
def SPL_MATERIAL_EMISSION_GREEN : ℤ := SPL_MATERIAL_EMISSION_RED + 1

/-- Enumerator `SPL_MATERIAL_EMISSION_BLUE`, without initializer: one more than `SPL_MATERIAL_EMISSION_GREEN`. -/
def SPL_MATERIAL_EMISSION_BLUE : ℤ := SPL_MATERIAL_EMISSION_GREEN + 1

/-- Enumerator `SPL_MATERIAL_AMBIENT_RED`, without initializer: one more than `SPL_MATERIAL_EMISSION_BLUE`. -/
def SPL_MATERIAL_AMBIENT_RED : ℤ := SPL_MATERIAL_EMISSION_BLUE + 1

/-- Enumerator `SPL_MATERIAL_AMBIENT_GREEN`, without initializer: one more than `SPL_MATERIAL_AMBIENT_RED`. -/
def SPL_MATERIAL_AMBIENT_GREEN : ℤ := SPL_MATERIAL_AMBIENT_RED + 1

/-- Enumerator `SPL_MATERIAL_AMBIENT_BLUE`, without initializer: one more than `SPL_MATERIAL_AMBIENT_GREEN`. -/
def SPL_MATERIAL_AMBIENT_BLUE : ℤ := SPL_MATERIAL_AMBIENT_GREEN + 1

/-- Enumerator `SPL_MATERIAL_DIFFUSE_RED`, without initializer: one more than `SPL_MATERIAL_AMBIENT_BLUE`. -/
def SPL_MATERIAL_DIFFUSE_RED : ℤ := SPL_MATERIAL_AMBIENT_BLUE + 1

/-- Enumerator `SPL_MATERIAL_DIFFUSE_GREEN`, without initializer: one more than `SPL_MATERIAL_DIFFUSE_RED`. -/
def SPL_MATERIAL_DIFFUSE_GREEN : ℤ := SPL_MATERIAL_DIFFUSE_RED + 1

/-- Enumerator `SPL_MATERIAL_DIFFUSE_BLUE`, without initializer: one more than `SPL_MATERIAL_DIFFUSE_GREEN`. -/
def SPL_MATERIAL_DIFFUSE_BLUE : ℤ := SPL_MATERIAL_DIFFUSE_GREEN + 1

/-- Enumerator `SPL_MATERIAL_SPECULAR_RED`, without initializer: one more than `SPL_MATERIAL_DIFFUSE_BLUE`. -/
def SPL_MATERIAL_SPECULAR_RED : ℤ := SPL_MATERIAL_DIFFUSE_BLUE + 1

/-- Enumerator `SPL_MATERIAL_SPECULAR_GREEN`, without initializer: one more than `SPL_MATERIAL_SPECULAR_RED`. -/
def SPL_MATERIAL_SPECULAR_GREEN : ℤ := SPL_MATERIAL_SPECULAR_RED + 1

/-- Enumerator `SPL_MATERIAL_SPECULAR_BLUE`, without initializer: one more than `SPL_MATERIAL_SPECULAR_GREEN`. -/
def SPL_MATERIAL_SPECULAR_BLUE : ℤ := SPL_MATERIAL_SPECULAR_GREEN + 1

/-- Enumerator `SPL_MATERIAL_SHININESS`, without initializer: one more than `SPL_MATERIAL_SPECULAR_BLUE`. -/
def SPL_MATERIAL_SHININESS : ℤ := SPL_MATERIAL_SPECULAR_BLUE + 1

/-- Enumerator `SPL_MATERIAL_ISOSURFACE`, without initializer: one more than `SPL_MATERIAL_SHININESS`. -/
def SPL_MATERIAL_ISOSURFACE : ℤ := SPL_MATERIAL_SHININESS + 1

/-- Enumerator `SPL_MATERIAL_GRADIENT`, without initializer: one more than `SPL_MATERIAL_ISOSURFACE`. -/
def SPL_MATERIAL_GRADIENT : ℤ := SPL_MATERIAL_ISOSURFACE + 1

/-- Enumerator `SPL_MATERIAL_EXT0`, without initializer: one more than `SPL_MATERIAL_GRADIENT`. -/
def SPL_MATERIAL_EXT0 : ℤ := SPL_MATERIAL_GRADIENT + 1

/-- Enumerator `SPL_MATERIAL_MAX`, without initializer: one more than `SPL_MATERIAL_EXT0`. -/
def SPL_MATERIAL_MAX : ℤ := SPL_MATERIAL_EXT0 + 1

/-- Enumerator `SPL_MATERIAL_APPROX_MIN`, without initializer: one more than `SPL_MATERIAL_MAX`. -/
def SPL_MATERIAL_APPROX_MIN : ℤ := SPL_MATERIAL_MAX + 1

/-- Enumerator `SPL_MATERIAL_APPROX_CONSTANT`, without initializer: one more than `SPL_MATERIAL_APPROX_MIN`. -/
def SPL_MATERIAL_APPROX_CONSTANT : ℤ := SPL_MATERIAL_APPROX_MIN + 1

/-- Enumerator `SPL_MATERIAL_APPROX_LINEAR`, without initializer: one more than `SPL_MATERIAL_APPROX_CONSTANT`. -/
def SPL_MATERIAL_APPROX_LINEAR : ℤ := SPL_MATERIAL_APPROX_CONSTANT + 1

/-- Enumerator `SPL_MATERIAL_APPROX_QUADRATIC`, without initializer: one more than `SPL_MATERIAL_APPROX_LINEAR`. -/
def SPL_MATERIAL_APPROX_QUADRATIC : ℤ := SPL_MATERIAL_APPROX_LINEAR + 1

/-- Enumerator `SPL_MATERIAL_APPROX_MAX`, without initializer: one more than `SPL_MATERIAL_APPROX_QUADRATIC`. -/
def SPL_MATERIAL_APPROX_MAX : ℤ := SPL_MATERIAL_APPROX_QUADRATIC + 1

/-- Enumerator `SPL_LIGHT_POIN = SPL_LIGHT_MIN + 1`. -/
def SPL_LIGHT_POIN : ℤ := SPL_LIGHT_MIN + 1

/-- Enumerator `SPL_LIGHT_DIRE`, without initializer: one more than `SPL_LIGHT_POIN`. -/
def SPL_LIGHT_DIRE : ℤ := SPL_LIGHT_POIN + 1

/-- Enumerator `SPL_LIGHT_SPOT`, without initializer: one more than `SPL_LIGHT_DIRE`. -/
def SPL_LIGHT_SPOT : ℤ := SPL_LIGHT_DIRE + 1

/-- All enumerators of `m_SPLenum`, in the order of declaration. -/
def m_SPLenum : List ℤ :=
  [SPL_TYPE_MIN, SPL_FILEIO_MIN, SPL_CAMERA_MIN, SPL_MATERIAL_MIN, SPL_LIGHT_MIN,
    SPL_TYPE_UINT8, SPL_TYPE_INT8, SPL_TYPE_UINT16, SPL_TYPE_INT16, SPL_TYPE_UINT32,
    SPL_TYPE_INT32, SPL_TYPE_UINT64, SPL_TYPE_INT64, SPL_TYPE_IEEE32, SPL_TYPE_IEEE64,
    SPL_TYPE_IEEE128, SPL_TYPE_VOIDP, SPL_TYPE_RGBA8, SPL_TYPE_RGBAf, SPL_TYPE_MAX,
    SPL_FILEIO_PGM_ID, SPL_FILEIO_PPM_ID, SPL_FILEIO_RAW_ID, SPL_FILEIO_PNG_ID,
    SPL_FILEIO_TIF_ID, SPL_FILEIO_NII_ID, SPL_FILEIO_VTR_ID, SPL_FILEIO_MAX,
    SPL_CAMERA_MATRIX_MODELVIEW, SPL_CAMERA_MATRIX_ORTHO, SPL_CAMERA_MATRIX_FRUSTUM,
    SPL_CAMERA_MATRIX_VIEWPORT, SPL_CAMERA_MAX, SPL_MATERIAL_OPACITY,
    SPL_MATERIAL_EMISSION_RED, SPL_MATERIAL_EMISSION_GREEN, SPL_MATERIAL_EMISSION_BLUE,
    SPL_MATERIAL_AMBIENT_RED, SPL_MATERIAL_AMBIENT_GREEN, SPL_MATERIAL_AMBIENT_BLUE,
    SPL_MATERIAL_DIFFUSE_RED, SPL_MATERIAL_DIFFUSE_GREEN, SPL_MATERIAL_DIFFUSE_BLUE,
    SPL_MATERIAL_SPECULAR_RED, SPL_MATERIAL_SPECULAR_GREEN, SPL_MATERIAL_SPECULAR_BLUE,
    SPL_MATERIAL_SHININESS, SPL_MATERIAL_ISOSURFACE, SPL_MATERIAL_GRADIENT,
    SPL_MATERIAL_EXT0, SPL_MATERIAL_MAX, SPL_MATERIAL_APPROX_MIN,
    SPL_MATERIAL_APPROX_CONSTANT, SPL_MATERIAL_APPROX_LINEAR,
    SPL_MATERIAL_APPROX_QUADRATIC, SPL_MATERIAL_APPROX_MAX, SPL_LIGHT_POIN,
    SPL_LIGHT_DIRE, SPL_LIGHT_SPOT]

/-- The named ids of the partition `TYPE`: the enumerators `SPL_TYPE_*` that are
no sentinel, in the order of declaration. -/
def typeIds : List ℤ :=
  [SPL_TYPE_UINT8, SPL_TYPE_INT8, SPL_TYPE_UINT16, SPL_TYPE_INT16, SPL_TYPE_UINT32,
    SPL_TYPE_INT32, SPL_TYPE_UINT64, SPL_TYPE_INT64, SPL_TYPE_IEEE32, SPL_TYPE_IEEE64,
    SPL_TYPE_IEEE128, SPL_TYPE_VOIDP, SPL_TYPE_RGBA8, SPL_TYPE_RGBAf]

/-- The named ids of the partition `FILEIO`: the enumerators `SPL_FILEIO_*` that are
no sentinel, in the order of declaration. -/
def fileioIds : List ℤ :=
  [SPL_FILEIO_PGM_ID, SPL_FILEIO_PPM_ID, SPL_FILEIO_RAW_ID, SPL_FILEIO_PNG_ID,
    SPL_FILEIO_TIF_ID, SPL_FILEIO_NII_ID, SPL_FILEIO_VTR_ID]

/-- The named ids of the partition `CAMERA`: the enumerators `SPL_CAMERA_*` that are
no sentinel, in the order of declaration. -/
def cameraIds : List ℤ :=
  [SPL_CAMERA_MATRIX_MODELVIEW, SPL_CAMERA_MATRIX_ORTHO, SPL_CAMERA_MATRIX_FRUSTUM,
    SPL_CAMERA_MATRIX_VIEWPORT]

/-- The named ids of the partition `MATERIAL`: the enumerators `SPL_MATERIAL_*` that are
no sentinel, in the order of declaration. -/
def materialIds : List ℤ :=
  [SPL_MATERIAL_OPACITY, SPL_MATERIAL_EMISSION_RED, SPL_MATERIAL_EMISSION_GREEN,
    SPL_MATERIAL_EMISSION_BLUE, SPL_MATERIAL_AMBIENT_RED, SPL_MATERIAL_AMBIENT_GREEN,
    SPL_MATERIAL_AMBIENT_BLUE, SPL_MATERIAL_DIFFUSE_RED, SPL_MATERIAL_DIFFUSE_GREEN,
    SPL_MATERIAL_DIFFUSE_BLUE, SPL_MATERIAL_SPECULAR_RED, SPL_MATERIAL_SPECULAR_GREEN,
    SPL_MATERIAL_SPECULAR_BLUE, SPL_MATERIAL_SHININESS, SPL_MATERIAL_ISOSURFACE,
    SPL_MATERIAL_GRADIENT, SPL_MATERIAL_EXT0]

/-- The named ids of the partition `MATERIAL_APPROX`: the enumerators `SPL_MATERIAL_APPROX_*` that are
no sentinel, in the order of declaration. -/
def materialApproxIds : List ℤ :=
  [SPL_MATERIAL_APPROX_CONSTANT, SPL_MATERIAL_APPROX_LINEAR,
    SPL_MATERIAL_APPROX_QUADRATIC]

/-- The named ids of the partition `LIGHT`: the enumerators `SPL_LIGHT_*` that are
no sentinel, in the order of declaration. -/
def lightIds : List ℤ :=
  [SPL_LIGHT_POIN, SPL_LIGHT_DIRE, SPL_LIGHT_SPOT]

/-- The named ids of `m_SPLenum`: every enumerator that is no `*_MIN` or
`*_MAX` sentinel. -/
def namedIds : List ℤ :=
  typeIds ++ fileioIds ++ cameraIds ++ materialIds ++ materialApproxIds ++ lightIds

/-- The pairs of a `*_MIN` and a `*_MAX` sentinel that `m_SPLenum` declares.
The enumeration has `SPL_LIGHT_MIN` but no `SPL_LIGHT_MAX`. -/
def sentinelRanges : List (ℤ × ℤ) :=
  [(SPL_TYPE_MIN, SPL_TYPE_MAX), (SPL_FILEIO_MIN, SPL_FILEIO_MAX),
    (SPL_CAMERA_MIN, SPL_CAMERA_MAX), (SPL_MATERIAL_MIN, SPL_MATERIAL_MAX),
    (SPL_MATERIAL_APPROX_MIN, SPL_MATERIAL_APPROX_MAX)]

/-- Modelled from the spec: the test of a consumer of the registry, which is
not among the sources and "must treat unknown ids (outside any partition's
`MIN..MAX`) as an unsupported-type error": an id is known when it lies
strictly between the two sentinels of some partition. -/
def knownId (id : ℤ) : Bool :=
  sentinelRanges.any (fun r => decide (r.1 < id) && decide (id < r.2))

/-- Modelled from the spec: the macro `SQRT`, whose header is not among the
sources.  The spec has `length()` the "square root of `square()`, same fixed
64-bit floating precision": the square root, given as `sqrt`, rounded to
double precision (53 bits, least normal exponent `-1022`). -/
def specSQRT {D : Type} [LinearOrderedField D] [FloorRing D] (sqrt : D → D) (d : D) : D :=
  roundBinary 53 (-1022) (sqrt d)

/-! ## Auxiliary facts -/

section Aux

open SPLVector3

theorem copy_eq {T : Type} (v : SPLVector3 T) : SPLVector3.copy v = v := rfl

/-- An integer nearer than one half is the rounded value. -/
theorem roundHalfEven_eq {D : Type} [LinearOrderedField D] [FloorRing D] (q : D) (n : ℤ) (h : |q - (n : D)| < 1 / 2) : roundHalfEven q = n := by
  rw [abs_lt] at h
  obtain ⟨h1, h2⟩ := h
  by_cases hq : (n : D) ≤ q
  · have hf : ⌊q⌋ = n := by
      rw [Int.floor_eq_iff]
      constructor
      · exact hq
      · linarith
    unfold roundHalfEven
    rw [hf]
    have : q - (n : D) < 1 / 2 := h2
    simp only [this, if_true]
  · have hq2 : q < (n : D) := not_le.mp hq
    have hf : ⌊q⌋ = n - 1 := by
      rw [Int.floor_eq_iff]
      push_cast
      constructor <;> linarith
    unfold roundHalfEven
    rw [hf]
    push_cast
    have a1 : ¬ (q - ((n : D) - 1) < 1 / 2) := by
      rw [not_lt]; linarith
    have a2 : 1 / 2 < q - ((n : D) - 1) := by linarith
    simp only [a1, a2, if_true, if_false]
    ring

/-- Rounding to an integer moves a number by one half at most. -/
theorem roundHalfEven_close {D : Type} [LinearOrderedField D] [FloorRing D] (q : D) : |((roundHalfEven q : ℤ) : D) - q| ≤ 1 / 2 := by
  have h0 := Int.floor_le q
  have h1 := Int.lt_floor_add_one q
  unfold roundHalfEven
  split_ifs with a b c
  · rw [abs_le]; constructor <;> linarith
  · push_cast; rw [abs_le]; constructor <;> linarith
  · rw [abs_le]
    have : q - (⌊q⌋ : D) = 1 / 2 := le_antisymm (not_lt.mp b) (not_lt.mp a)
    constructor <;> linarith
  · push_cast; rw [abs_le]
    have : q - (⌊q⌋ : D) = 1 / 2 := le_antisymm (not_lt.mp b) (not_lt.mp a)
    constructor <;> linarith

/-- Rounding a non-negative number gives a non-negative integer. -/
theorem roundHalfEven_nonneg {D : Type} [LinearOrderedField D] [FloorRing D] (q : D) (h : 0 ≤ q) : 0 ≤ roundHalfEven q := by
  have hf : 0 ≤ ⌊q⌋ := Int.floor_nonneg.mpr h
  unfold roundHalfEven
  split_ifs <;> omega

/-- Powers of two are positive. -/
theorem two_zpow_pos {D : Type} [LinearOrderedField D] (k : ℤ) : (0 : D) < 2 ^ k :=
  zpow_pos (by norm_num) k

/-- The binary exponent of a number between two consecutive powers of two. -/
theorem int_log_two_eq {D : Type} [LinearOrderedField D] [FloorRing D] (r : D) (e : ℤ) (hlo : (2 : D) ^ e ≤ r) (hhi : r < 2 ^ (e + 1)) :
    Int.log 2 r = e := by
  have hr : 0 < r := lt_of_lt_of_le (two_zpow_pos e) hlo
  have h1 : e ≤ Int.log 2 r := by
    rw [← Int.zpow_le_iff_le_log (by norm_num) hr]
    simpa using hlo
  have h2 : Int.log 2 r < e + 1 := by
    rw [← Int.lt_zpow_iff_log_lt (by norm_num) hr]
    simpa using hhi
  omega

/-- Evaluation of `roundBinary` from the binade of the number and the nearest
significand. -/
theorem roundBinary_eq {D : Type} [LinearOrderedField D] [FloorRing D] (p : ℕ) (emin : ℤ) (d : D) (e n : ℤ) (hlo : (2 : D) ^ e ≤ |d|)
    (hhi : |d| < 2 ^ (e + 1)) (he : emin ≤ e)
    (hn : |d / 2 ^ (e - ((p : ℤ) - 1)) - (n : D)| < 1 / 2) :
    roundBinary p emin d = (n : D) * 2 ^ (e - ((p : ℤ) - 1)) := by
  unfold roundBinary
  simp only [int_log_two_eq |d| e hlo hhi, max_eq_left he, roundHalfEven_eq _ n hn]

/-- Zero is a number of every format. -/
theorem roundBinary_zero {D : Type} [LinearOrderedField D] [FloorRing D] (p : ℕ) (emin : ℤ) : roundBinary p emin (0 : D) = 0 := by
  unfold roundBinary
  have : roundHalfEven (0 / (2 : D) ^ (max (Int.log 2 |(0 : D)|) emin - ((p : ℤ) - 1))) = 0 := by
    apply roundHalfEven_eq
    simp
  simp only [this]
  simp

/-- Rounding to a format keeps a non-negative number non-negative. -/
theorem roundBinary_nonneg {D : Type} [LinearOrderedField D] [FloorRing D] (p : ℕ) (emin : ℤ) (d : D) (h : 0 ≤ d) :
    0 ≤ roundBinary p emin d := by
  unfold roundBinary
  apply mul_nonneg
  · exact_mod_cast roundHalfEven_nonneg _ (div_nonneg h (two_zpow_pos _).le)
  · exact (two_zpow_pos _).le

/-- Rounding to a format moves a number by half a unit in the last place at
most. -/
theorem roundBinary_error {D : Type} [LinearOrderedField D] [FloorRing D] (p : ℕ) (emin : ℤ) (d : D) :
    |roundBinary p emin d - d| ≤ 2 ^ (max (Int.log 2 |d|) emin - (p : ℤ)) := by
  unfold roundBinary
  set e := max (Int.log 2 |d|) emin with he
  have hu : (0 : D) < 2 ^ (e - ((p : ℤ) - 1)) := two_zpow_pos _
  have hd : d = d / 2 ^ (e - ((p : ℤ) - 1)) * 2 ^ (e - ((p : ℤ) - 1)) := by
    field_simp
  have hc := roundHalfEven_close (d / (2 : D) ^ (e - ((p : ℤ) - 1)))
  have : ((roundHalfEven (d / (2 : D) ^ (e - ((p : ℤ) - 1))) : ℤ) : D) * 2 ^ (e - ((p : ℤ) - 1)) - d
      = (((roundHalfEven (d / (2 : D) ^ (e - ((p : ℤ) - 1))) : ℤ) : D)
          - d / 2 ^ (e - ((p : ℤ) - 1))) * 2 ^ (e - ((p : ℤ) - 1)) := by
    rw [sub_mul, ← hd]
  show |((roundHalfEven (d / (2 : D) ^ (e - ((p : ℤ) - 1))) : ℤ) : D) * 2 ^ (e - ((p : ℤ) - 1)) - d| ≤ _
  rw [this, abs_mul, abs_of_pos hu]
  have h2 : (2 : D) ^ (e - (p : ℤ)) = 1 / 2 * 2 ^ (e - ((p : ℤ) - 1)) := by
    have : e - ((p : ℤ) - 1) = (e - (p : ℤ)) + 1 := by ring
    rw [this, zpow_add_one₀ (by norm_num : (2 : D) ≠ 0)]
    ring
  rw [h2]
  exact mul_le_mul_of_nonneg_right hc hu.le

/-- In the normal range the rounding error is at most the `2 ^ p`-th part of
the number. -/
theorem roundBinary_error_rel {D : Type} [LinearOrderedField D] [FloorRing D] (p : ℕ) (emin : ℤ) (d : D) (h : (2 : D) ^ emin ≤ |d|) :
    |roundBinary p emin d - d| ≤ |d| / 2 ^ p := by
  have hr : 0 < |d| := lt_of_lt_of_le (two_zpow_pos emin) h
  have hlog : emin ≤ Int.log 2 |d| := by
    rw [← Int.zpow_le_iff_le_log (by norm_num) hr]
    simpa using h
  have h1 := roundBinary_error p emin d
  rw [max_eq_left hlog] at h1
  have h2 : (2 : D) ^ (Int.log 2 |d|) ≤ |d| := by
    simpa using Int.zpow_log_le_self (b := 2) (by norm_num) hr
  calc |roundBinary p emin d - d| ≤ 2 ^ (Int.log 2 |d| - (p : ℤ)) := h1
    _ = 2 ^ (Int.log 2 |d|) / 2 ^ p := by
      rw [zpow_sub₀ (by norm_num : (2 : D) ≠ 0), zpow_natCast]
    _ ≤ |d| / 2 ^ p := by
      apply div_le_div_of_nonneg_right h2
      positivity

/-- With exact components the value of `square()` is the sum of the squares. -/
theorem square_exactKind {D : Type} [LinearOrderedField D] [FloorRing D] (sqrt : D → D)
    (eps : D)
    (v : SPLVector3 D) :
    v.square (exactKind sqrt eps) = v.x * v.x + v.y * v.y + v.z * v.z := rfl

theorem sumsq_nonneg {D : Type} [LinearOrderedField D] (v : SPLVector3 D) :
    0 ≤ v.x * v.x + v.y * v.y + v.z * v.z := by
  have h1 := mul_self_nonneg v.x
  have h2 := mul_self_nonneg v.y
  have h3 := mul_self_nonneg v.z
  linarith

theorem sumsq_pos {D : Type} [LinearOrderedField D] (v : SPLVector3 D)
    (hv : v ≠ SPLVector3.new) : 0 < v.x * v.x + v.y * v.y + v.z * v.z := by
  rcases v with ⟨x, y, z⟩
  have h1 := mul_self_nonneg x
  have h2 := mul_self_nonneg y
  have h3 := mul_self_nonneg z
  by_contra hn
  have hx : x * x = 0 := by linarith
  have hy : y * y = 0 := by linarith
  have hz : z * z = 0 := by linarith
  apply hv
  simp only [SPLVector3.new, SPLVector3.mk.injEq]
  exact ⟨mul_self_eq_zero.mp hx, mul_self_eq_zero.mp hy, mul_self_eq_zero.mp hz⟩

/-- Over the reals neither assertion of `length()` can fail, and the value is
the square root of the sum of the squares. -/
theorem length_exactKind_real (eps : ℝ) (v : SPLVector3 ℝ) :
    v.length (exactKind Real.sqrt eps)
      = Except.ok (Real.sqrt (v.x * v.x + v.y * v.y + v.z * v.z)) := by
  have h := sumsq_nonneg v
  simp only [SPLVector3.length, square_exactKind]
  simp [h, exactKind, Real.sqrt_nonneg]

/-- The run of `normalize` that reaches the postcondition and passes it. -/
theorem normalize_of_passed {T D : Type} [LinearOrderedField D] (E : Ieee T D)
    (v : SPLVector3 T) (L len len2 : D) (hL : 0 < L)
    (h1 : v.length E = Except.ok len) (hne : len ≠ 0)
    (h2 : SPLVector3.length E
        { x := E.narrow (E.widen v.x * L / len)
          y := E.narrow (E.widen v.y * L / len)
          z := E.narrow (E.widen v.z * L / len) } = Except.ok len2)
    (h3 : E.ABS (len2 - L) < E.EPS) :
    v.normalize E L = Outcome.done
        { x := E.narrow (E.widen v.x * L / len)
          y := E.narrow (E.widen v.y * L / len)
          z := E.narrow (E.widen v.z * L / len) } := by
  unfold SPLVector3.normalize
  simp only [gt_iff_lt, hL, if_true, h1, hne, if_false, h2, h3]

/-- The run of `normalize` that reaches the postcondition and fails it. -/
theorem normalize_of_failed {T D : Type} [LinearOrderedField D] (E : Ieee T D)
    (v : SPLVector3 T) (L len len2 : D) (hL : 0 < L)
    (h1 : v.length E = Except.ok len) (hne : len ≠ 0)
    (h2 : SPLVector3.length E
        { x := E.narrow (E.widen v.x * L / len)
          y := E.narrow (E.widen v.y * L / len)
          z := E.narrow (E.widen v.z * L / len) } = Except.ok len2)
    (h3 : ¬ E.ABS (len2 - L) < E.EPS) :
    v.normalize E L = Outcome.abort Assertion.lengthReached
        { x := E.narrow (E.widen v.x * L / len)
          y := E.narrow (E.widen v.y * L / len)
          z := E.narrow (E.widen v.z * L / len) } := by
  unfold SPLVector3.normalize
  simp only [gt_iff_lt, hL, if_true, h1, hne, if_false, h2, h3]

/-- Over the reals a run of `normalize(L)`, `L > 0`, on a non-zero receiver
passes the early return and overwrites the receiver with the
single-precision values of the three quotients; it then returns or fails the
postcondition, no other assertion. -/
theorem normalize_reached_exactKind_real (eps : ℝ) (v : SPLVector3 ℝ)
    (hv : v ≠ SPLVector3.new) (L : ℝ) (hL : 0 < L) :
    v.normalize (exactKind Real.sqrt eps) L
        = Outcome.done
            { x := roundBinary 24 (-126)
                (v.x * L / Real.sqrt (v.x * v.x + v.y * v.y + v.z * v.z))
              y := roundBinary 24 (-126)
                (v.y * L / Real.sqrt (v.x * v.x + v.y * v.y + v.z * v.z))
              z := roundBinary 24 (-126)
                (v.z * L / Real.sqrt (v.x * v.x + v.y * v.y + v.z * v.z)) }
      ∨ v.normalize (exactKind Real.sqrt eps) L
        = Outcome.abort Assertion.lengthReached
            { x := roundBinary 24 (-126)
                (v.x * L / Real.sqrt (v.x * v.x + v.y * v.y + v.z * v.z))
              y := roundBinary 24 (-126)
                (v.y * L / Real.sqrt (v.x * v.x + v.y * v.y + v.z * v.z))
              z := roundBinary 24 (-126)
                (v.z * L / Real.sqrt (v.x * v.x + v.y * v.y + v.z * v.z)) } := by
  have hs := sumsq_pos v hv
  have hne : Real.sqrt (v.x * v.x + v.y * v.y + v.z * v.z) ≠ 0 := (Real.sqrt_pos.mpr hs).ne.symm
  have h1 := length_exactKind_real eps v
  by_cases h3 : (exactKind Real.sqrt eps).ABS
      (Real.sqrt (SPLVector3.square (exactKind Real.sqrt eps)
          { x := (exactKind Real.sqrt eps).narrow ((exactKind Real.sqrt eps).widen v.x * L
                / Real.sqrt (v.x * v.x + v.y * v.y + v.z * v.z))
            y := (exactKind Real.sqrt eps).narrow ((exactKind Real.sqrt eps).widen v.y * L
                / Real.sqrt (v.x * v.x + v.y * v.y + v.z * v.z))
            z := (exactKind Real.sqrt eps).narrow ((exactKind Real.sqrt eps).widen v.z * L
                / Real.sqrt (v.x * v.x + v.y * v.y + v.z * v.z)) }) - L)
      < (exactKind Real.sqrt eps).EPS
  · left
    exact normalize_of_passed (exactKind Real.sqrt eps) v L _ _ hL h1 hne
      (length_exactKind_real eps _) h3
  · right
    exact normalize_of_failed (exactKind Real.sqrt eps) v L _ _ hL h1 hne
      (length_exactKind_real eps _) h3

/-- The length of the real vector `(3,4,0)` is `5`. -/
theorem length_3_4_0 (eps : ℝ) :
    (SPLVector3.mk 3 4 0 : SPLVector3 ℝ).length (exactKind Real.sqrt eps) = Except.ok 5 := by
  rw [length_exactKind_real]
  congr 1
  rw [Real.sqrt_eq_iff_mul_self_eq_of_pos (by norm_num)]
  norm_num

/-- The run `SPLVector3i(3,4,0).normalize(1.0)`: the length is `5`, the
quotients `0.6`, `0.8` and `0`, in single precision, are truncated to `0`,
and the length of the overwritten receiver `(0,0,0)` misses the target. -/
theorem int32_normalize_3_4_0 :
    (SPLVector3.mk 3 4 0 : SPLVector3 ℤ).normalize (int32Kind Real.sqrt (1 / 1000000)) 1
      = Outcome.abort Assertion.lengthReached (SPLVector3.mk 0 0 0) := by
  have h25 : Real.sqrt 25 = 5 := by
    rw [Real.sqrt_eq_iff_mul_self_eq_of_pos (by norm_num)]
    norm_num
  have h1 : (SPLVector3.mk 3 4 0 : SPLVector3 ℤ).length (int32Kind Real.sqrt (1 / 1000000))
      = Except.ok 5 := by
    have hsq : (SPLVector3.mk 3 4 0 : SPLVector3 ℤ).square (int32Kind Real.sqrt (1 / 1000000))
        = 25 := by
      simp only [SPLVector3.square, int32Kind]
      norm_num
    simp only [SPLVector3.length, hsq]
    simp [int32Kind, h25]
  have rx : roundBinary 24 (-126) ((3 : ℝ) * 1 / 5) = 5033165 / 8388608 := by
    rw [roundBinary_eq 24 (-126) ((3 : ℝ) * 1 / 5) (-1) 10066330
      (by rw [abs_of_pos (by norm_num)]; norm_num)
      (by rw [abs_of_pos (by norm_num)]; norm_num) (by norm_num)
      (by rw [abs_lt]; constructor <;> norm_num)]
    norm_num
  have ry : roundBinary 24 (-126) ((4 : ℝ) * 1 / 5) = 13421773 / 16777216 := by
    rw [roundBinary_eq 24 (-126) ((4 : ℝ) * 1 / 5) (-1) 13421773
      (by rw [abs_of_pos (by norm_num)]; norm_num)
      (by rw [abs_of_pos (by norm_num)]; norm_num) (by norm_num)
      (by rw [abs_lt]; constructor <;> norm_num)]
    norm_num
  have hx : (int32Kind Real.sqrt (1 / 1000000)).narrow
      ((int32Kind Real.sqrt (1 / 1000000)).widen 3 * 1 / 5) = 0 := by
    simp only [int32Kind, Int.cast_ofNat, rx]
    norm_num
  have hy : (int32Kind Real.sqrt (1 / 1000000)).narrow
      ((int32Kind Real.sqrt (1 / 1000000)).widen 4 * 1 / 5) = 0 := by
    simp only [int32Kind, Int.cast_ofNat, ry]
    norm_num
  have hz : (int32Kind Real.sqrt (1 / 1000000)).narrow
      ((int32Kind Real.sqrt (1 / 1000000)).widen 0 * 1 / 5) = 0 := by
    simp [int32Kind, roundBinary_zero]
  have h2 : (SPLVector3.mk 0 0 0 : SPLVector3 ℤ).length (int32Kind Real.sqrt (1 / 1000000))
      = Except.ok 0 := by
    simp [SPLVector3.length, SPLVector3.square, int32Kind]
  have h := normalize_of_failed (int32Kind Real.sqrt (1 / 1000000)) (SPLVector3.mk 3 4 0)
    1 5 0 one_pos h1 (by norm_num)
  simp only [hx, hy, hz] at h
  exact h h2 (by simp only [int32Kind]; norm_num)

end Aux

/-! ## Normalisation -/

section Normalisation

open SPLVector3

/-- C1: for every target length `L > 0`, `normalize(L)` applied to the zero
vector `(0,0,0)` completes without a failed assertion and leaves the vector
equal to `(0,0,0)`, and `getNormalized(L)` on the zero vector returns
`(0,0,0)`.  This holds for every component type and every numeric
environment in which the square of `T(0)` is `0` and the square root of `0`
is `0`. -/
theorem normalize_zero_vector {T D : Type} [Zero T] [LinearOrderedField D]
    (E : Ieee T D) (hP : E.POW2 0 = 0) (hS : E.SQRT 0 = 0) (L : D) (hL : 0 < L) :
    (SPLVector3.mk 0 0 0 : SPLVector3 T).normalize E L
        = Outcome.done (SPLVector3.mk 0 0 0)
      ∧ (SPLVector3.mk 0 0 0 : SPLVector3 T).getNormalized E L
        = Except.ok (SPLVector3.mk 0 0 0) := by
  have hlen : (SPLVector3.mk 0 0 0 : SPLVector3 T).length E = Except.ok 0 := by
    simp [SPLVector3.length, SPLVector3.square, hP, hS]
  have hn : (SPLVector3.mk 0 0 0 : SPLVector3 T).normalize E L
      = Outcome.done (SPLVector3.mk 0 0 0) := by
    unfold SPLVector3.normalize
    simp only [gt_iff_lt, hL, if_true, hlen]
  refine ⟨hn, ?_⟩
  unfold SPLVector3.getNormalized
  simp only [copy_eq, hn]

/-- The zero vector of real components, target length `1`, tolerance `1e-6`. -/
theorem normalize_zero_vector_witness :
    (0 : ℝ) < 1
      ∧ (SPLVector3.mk 0 0 0 : SPLVector3 ℝ).normalize (exactKind Real.sqrt (1 / 1000000)) 1
        = Outcome.done (SPLVector3.mk 0 0 0)
      ∧ (SPLVector3.mk 0 0 0 : SPLVector3 ℝ).getNormalized (exactKind Real.sqrt (1 / 1000000)) 1
        = Except.ok (SPLVector3.mk 0 0 0) :=
  ⟨one_pos, normalize_zero_vector (exactKind Real.sqrt (1 / 1000000))
    (by simp [exactKind]) (by simp [exactKind]) 1 one_pos⟩

/-- C2, the code at `SPLVector3d(3,4,0).getNormalized(1001.0)`, the tolerance
being `1e-6`: the length is `5`; the quotients `600.6` and `800.8` pass
through the cast `SPLieee32(...)` and are stored as `4920115/8192` and
`13120307/16384`; the length of the copy is then below `1001 - 1e-6`, so the
postcondition assertion of `normalize` fails and `getNormalized` does not
return. -/
theorem getNormalized_ieee64_postcondition_fails :
    (SPLVector3.mk 3 4 0 : SPLVector3 ℝ).normalize (exactKind Real.sqrt (1 / 1000000)) 1001
        = Outcome.abort Assertion.lengthReached
            (SPLVector3.mk (4920115 / 8192) (13120307 / 16384) 0)
      ∧ (SPLVector3.mk 3 4 0 : SPLVector3 ℝ).getNormalized
          (exactKind Real.sqrt (1 / 1000000)) 1001
        = Except.error Assertion.lengthReached := by
  have hx : (exactKind Real.sqrt (1 / 1000000)).narrow
      ((exactKind Real.sqrt (1 / 1000000)).widen 3 * 1001 / 5) = 4920115 / 8192 := by
    show roundBinary 24 (-126) ((3 : ℝ) * 1001 / 5) = 4920115 / 8192
    rw [roundBinary_eq 24 (-126) ((3 : ℝ) * 1001 / 5) 9 9840230
      (by rw [abs_of_pos (by norm_num)]; norm_num)
      (by rw [abs_of_pos (by norm_num)]; norm_num) (by norm_num)
      (by rw [abs_lt]; constructor <;> norm_num)]
    norm_num
  have hy : (exactKind Real.sqrt (1 / 1000000)).narrow
      ((exactKind Real.sqrt (1 / 1000000)).widen 4 * 1001 / 5) = 13120307 / 16384 := by
    show roundBinary 24 (-126) ((4 : ℝ) * 1001 / 5) = 13120307 / 16384
    rw [roundBinary_eq 24 (-126) ((4 : ℝ) * 1001 / 5) 9 13120307
      (by rw [abs_of_pos (by norm_num)]; norm_num)
      (by rw [abs_of_pos (by norm_num)]; norm_num) (by norm_num)
      (by rw [abs_lt]; constructor <;> norm_num)]
    norm_num
  have hz : (exactKind Real.sqrt (1 / 1000000)).narrow
      ((exactKind Real.sqrt (1 / 1000000)).widen 0 * 1001 / 5) = 0 := by
    show roundBinary 24 (-126) ((0 : ℝ) * 1001 / 5) = 0
    rw [zero_mul, zero_div, roundBinary_zero]
  have h := normalize_of_failed (exactKind Real.sqrt (1 / 1000000)) (SPLVector3.mk 3 4 0)
    1001 5 _ (by norm_num) (length_3_4_0 _) (by norm_num) (length_exactKind_real _ _)
  simp only [hx, hy, hz] at h
  have hrun := h (by
    show ¬ |Real.sqrt ((4920115 / 8192 : ℝ) * (4920115 / 8192)
        + 13120307 / 16384 * (13120307 / 16384) + 0 * 0) - 1001| < 1 / 1000000
    have hle : Real.sqrt ((4920115 / 8192 : ℝ) * (4920115 / 8192)
        + 13120307 / 16384 * (13120307 / 16384) + 0 * 0) ≤ 1001 - 1 / 1000000 := by
      rw [Real.sqrt_le_left (by norm_num)]
      norm_num
    rw [not_lt, abs_sub_comm, abs_of_nonneg (by linarith)]
    linarith)
  refine ⟨hrun, ?_⟩
  unfold SPLVector3.getNormalized
  simp only [copy_eq, hrun]

/-- C3, the code at `SPLVector3i(3,4,0).normalize(1.0)`: the length is `5`,
the three quotients `0.6`, `0.8`, `0` are truncated to `0`, the receiver
becomes `(0,0,0)` with length `0`, and the postcondition assertion fails. -/
theorem normalize_int32_postcondition_fails :
    (SPLVector3.mk 3 4 0 : SPLVector3 ℤ).normalize (int32Kind Real.sqrt (1 / 1000000)) 1
      = Outcome.abort Assertion.lengthReached (SPLVector3.mk 0 0 0) :=
  int32_normalize_3_4_0

end Normalisation

/-! ## Matrix times vector -/

section MatrixVector

open SPLVector3

/-- C4: the product `m * v` of an `SPLMatrix4` with an `SPLVector3` uses the
column convention: each result component is the sum over the columns `m.x`,
`m.y`, `m.z` of that component of the column times the matching component of
`v`, so the result is `v.x*m.x + v.y*m.y + v.z*m.z` restricted to `x`, `y`,
`z`. -/
theorem matrixMul_column_convention {T : Type} [CommSemiring T] (m : SPLMatrix4 T)
    (v : SPLVector3 T) :
    (matrixMul m v).x = m.x.x * v.x + m.y.x * v.y + m.z.x * v.z
      ∧ (matrixMul m v).y = m.x.y * v.x + m.y.y * v.y + m.z.y * v.z
      ∧ (matrixMul m v).z = m.x.z * v.x + m.y.z * v.y + m.z.z * v.z
      ∧ matrixMul m v
        = ((scalarMul v.x (ofVector4 m.x)).add (scalarMul v.y (ofVector4 m.y))).add
            (scalarMul v.z (ofVector4 m.z)) := by
  refine ⟨rfl, rfl, rfl, ?_⟩
  simp only [matrixMul, scalarMul, ofVector4, SPLVector3.add, SPLVector3.addAssign,
    SPLVector3.copy, SPLVector3.new, SPLVector3.mk.injEq]
  refine ⟨?_, ?_, ?_⟩ <;> ring

/-- C5: multiplying the 4x4 identity matrix, whose columns are `(1,0,0,0)`,
`(0,1,0,0)`, `(0,0,1,0)`, `(0,0,0,1)`, by any `SPLVector3` `v` returns
exactly `v`. -/
theorem matrixMul_identity {T : Type} [Semiring T] (v : SPLVector3 T) :
    matrixMul
        ({ x := SPLVector4.mk 1 0 0 0
           y := SPLVector4.mk 0 1 0 0
           z := SPLVector4.mk 0 0 1 0
           w := SPLVector4.mk 0 0 0 1 } : SPLMatrix4 T) v = v := by
  rcases v with ⟨x, y, z⟩
  simp [matrixMul, SPLVector3.new]

end MatrixVector

/-! ## Cross product -/

section CrossProduct

open SPLVector3

/-- C6: for all vectors `a` and `b` with exact component arithmetic (a
commutative ring), `a.crossProduct(b) == -(b.crossProduct(a))`: the cross
product is anticommutative. -/
theorem crossProduct_anticomm {T : Type} [CommRing T] [DecidableEq T] (a b : SPLVector3 T) :
    (a.crossProduct b).eq (b.crossProduct a).neg = true
      ∧ a.crossProduct b = (b.crossProduct a).neg := by
  have h : a.crossProduct b = (b.crossProduct a).neg := by
    simp only [SPLVector3.crossProduct, SPLVector3.neg, SPLVector3.new, SPLVector3.mk.injEq]
    refine ⟨?_, ?_, ?_⟩ <;> ring
  refine ⟨?_, h⟩
  rw [← h]
  simp [SPLVector3.eq]

/-- C7: for all vectors `a` and `b` with exact component arithmetic (a
commutative ring), the cross product is perpendicular to both operands: the
dot products `a * a.crossProduct(b)` and `b * a.crossProduct(b)` are `0`. -/
theorem crossProduct_perpendicular {T : Type} [CommRing T] (a b : SPLVector3 T) :
    a.dot (a.crossProduct b) = 0 ∧ b.dot (a.crossProduct b) = 0 := by
  simp only [SPLVector3.crossProduct, SPLVector3.dot, SPLVector3.new]
  constructor <;> ring

/-- C8: for all vectors `V` and `v`, `V.crossProduct(v)` is the right-handed
cross product as the header gives it,
`(V.y*v.z - v.y*V.z, v.x*V.z - V.x*v.z, V.x*v.y - v.x*V.y)`; in particular
`(1,0,0).crossProduct((0,1,0)) == (0,0,1)`. -/
theorem crossProduct_formula {T : Type} [CommRing T] [DecidableEq T] (V v : SPLVector3 T) :
    V.crossProduct v
        = SPLVector3.mk (V.y * v.z - v.y * V.z) (v.x * V.z - V.x * v.z)
            (V.x * v.y - v.x * V.y)
      ∧ ((SPLVector3.mk 1 0 0 : SPLVector3 T).crossProduct (SPLVector3.mk 0 1 0)).eq
            (SPLVector3.mk 0 0 1) = true := by
  constructor
  · simp only [SPLVector3.crossProduct, SPLVector3.new, SPLVector3.mk.injEq]
    refine ⟨?_, ?_, ?_⟩ <;> ring
  · simp [SPLVector3.crossProduct, SPLVector3.eq, SPLVector3.new]

end CrossProduct

/-! ## Preconditions -/

section Preconditions

open SPLVector3

/-- C9: for every vector `v` and every target length `l <= 0`, `normalize(l)`
aborts on its precondition assertion with no component of `v` changed; this
holds also when `v` is the zero vector, since the precondition check comes
before the zero-length early return. -/
theorem normalize_nonpositive_target {T D : Type} [Zero T] [LinearOrderedField D]
    (E : Ieee T D) (v : SPLVector3 T) (l : D) (hl : l ≤ 0) :
    v.normalize E l = Outcome.abort Assertion.targetPositive v
      ∧ (SPLVector3.mk 0 0 0 : SPLVector3 T).normalize E l
        = Outcome.abort Assertion.targetPositive (SPLVector3.mk 0 0 0) := by
  have main : ∀ w : SPLVector3 T,
      w.normalize E l = Outcome.abort Assertion.targetPositive w := by
    intro w
    unfold SPLVector3.normalize
    simp only [gt_iff_lt, not_lt.mpr hl, if_false]
  exact ⟨main v, main _⟩

/-- The vector `(1,2,3)` of real components and the target length `-1`. -/
theorem normalize_nonpositive_target_witness :
    (-1 : ℝ) ≤ 0
      ∧ (SPLVector3.mk 1 2 3 : SPLVector3 ℝ).normalize (exactKind Real.sqrt (1 / 1000000)) (-1)
        = Outcome.abort Assertion.targetPositive (SPLVector3.mk 1 2 3)
      ∧ (SPLVector3.mk 0 0 0 : SPLVector3 ℝ).normalize (exactKind Real.sqrt (1 / 1000000)) (-1)
        = Outcome.abort Assertion.targetPositive (SPLVector3.mk 0 0 0) :=
  ⟨by norm_num, normalize_nonpositive_target (exactKind Real.sqrt (1 / 1000000))
    (SPLVector3.mk 1 2 3) (-1) (by norm_num)⟩

/-- C10: for every vector `v` and scalar `s` of the component type, `v /= s`
and `v / s` abort if and only if `s` equals `T(0)`; when `s` is not `T(0)`
they produce the per-component quotient `(v.x/s, v.y/s, v.z/s)`; and when
`v /= s` aborts, it is on the divisor assertion with no component of the
receiver changed. -/
theorem div_aborts_iff_zero {T : Type} [Zero T] [Div T] [DecidableEq T]
    (v : SPLVector3 T) (s : T) :
    ((∃ site self, v.divAssign s = Outcome.abort site self) ↔ s = 0)
      ∧ ((∃ site, v.div s = Except.error site) ↔ s = 0)
      ∧ (s ≠ 0 → v.divAssign s = Outcome.done (SPLVector3.mk (v.x / s) (v.y / s) (v.z / s))
          ∧ v.div s = Except.ok (SPLVector3.mk (v.x / s) (v.y / s) (v.z / s)))
      ∧ (∀ site self, v.divAssign s = Outcome.abort site self →
          site = Assertion.divisorNonZero ∧ self = v) := by
  by_cases hs : s = 0
  · have h1 : v.divAssign s = Outcome.abort Assertion.divisorNonZero v := by
      simp [SPLVector3.divAssign, hs]
    have h2 : v.div s = Except.error Assertion.divisorNonZero := by
      simp only [SPLVector3.div, copy_eq, h1]
    refine ⟨⟨fun _ => hs, fun _ => ⟨_, _, h1⟩⟩, ⟨fun _ => hs, fun _ => ⟨_, h2⟩⟩,
      fun h => absurd hs h, ?_⟩
    intro site self h
    rw [h1] at h
    injection h with e1 e2
    exact ⟨e1.symm, e2.symm⟩
  · have h1 : v.divAssign s
        = Outcome.done (SPLVector3.mk (v.x / s) (v.y / s) (v.z / s)) := by
      simp [SPLVector3.divAssign, hs]
    have h2 : v.div s = Except.ok (SPLVector3.mk (v.x / s) (v.y / s) (v.z / s)) := by
      simp only [SPLVector3.div, copy_eq, h1]
    refine ⟨⟨?_, fun h => absurd h hs⟩, ⟨?_, fun h => absurd h hs⟩, fun _ => ⟨h1, h2⟩, ?_⟩
    · rintro ⟨site, self, h⟩
      rw [h1] at h
      cases h
    · rintro ⟨site, h⟩
      rw [h2] at h
      cases h
    · intro site self h
      rw [h1] at h
      cases h

/-- The integer vector `(6,4,2)` divided by `2`, which is not `0`. -/
theorem div_aborts_iff_zero_witness :
    (2 : ℤ) ≠ 0
      ∧ (SPLVector3.mk 6 4 2 : SPLVector3 ℤ).divAssign 2
        = Outcome.done (SPLVector3.mk (6 / 2) (4 / 2) (2 / 2))
      ∧ (SPLVector3.mk 6 4 2 : SPLVector3 ℤ).div 2
        = Except.ok (SPLVector3.mk (6 / 2) (4 / 2) (2 / 2)) :=
  ⟨by decide, (div_aborts_iff_zero (SPLVector3.mk 6 4 2) 2).2.2.1 (by decide)⟩

end Preconditions

/-! ## Failure and the receiver -/

section Atomicity

open SPLVector3

/-- C11, the code at `SPLVector3i(3,4,0).normalize(1.0)`: the run ends in a
failed assertion, the postcondition of `normalize`, with the receiver
already overwritten: it holds `(0,0,0)` and no longer `(3,4,0)`. -/
theorem normalize_int32_not_atomic :
    (SPLVector3.mk 3 4 0 : SPLVector3 ℤ).normalize (int32Kind Real.sqrt (1 / 1000000)) 1
        = Outcome.abort Assertion.lengthReached (SPLVector3.mk 0 0 0)
      ∧ (SPLVector3.mk 0 0 0 : SPLVector3 ℤ) ≠ SPLVector3.mk 3 4 0 :=
  ⟨int32_normalize_3_4_0, by decide⟩

end Atomicity

/-! ## Scaling and unscaling -/

section Scaling

open SPLVector3

/-- C12 as stated fails for a wrapping component type: with `SPLuint8`
components, `(128,0,0) * 2` wraps to `(0,0,0)`, and dividing by `2`, which is
not `0`, gives `(0,0,0)`, not `(128,0,0)`. -/
theorem mul_div_uint8_wraps :
    (2 : SPLuint8) ≠ 0
      ∧ ((SPLVector3.mk 128 0 0 : SPLVector3 SPLuint8).mul 2).div 2
        = Except.ok (SPLVector3.mk 0 0 0)
      ∧ ((SPLVector3.mk 128 0 0 : SPLVector3 SPLuint8).mul 2).div 2
        ≠ Except.ok (SPLVector3.mk 128 0 0) := by
  have h : ((SPLVector3.mk 128 0 0 : SPLVector3 SPLuint8).mul 2).div 2
      = Except.ok (SPLVector3.mk 0 0 0) := rfl
  refine ⟨by decide, h, ?_⟩
  rw [h]
  intro e
  have e2 : (SPLVector3.mk 0 0 0 : SPLVector3 SPLuint8) = SPLVector3.mk 128 0 0 :=
    Except.ok.inj e
  exact absurd e2 (by decide)

/-- C12, amended: for every vector `v` and scalar `s != 0` of an integer
component type, `(v * s) / s` is `v` whenever none of the three products
`v.x*s`, `v.y*s`, `v.z*s` overflows or wraps around: for signed components
taken as integers, with the quotient rounded as Lean does and as C++ does
(toward zero), and for unsigned components modulo `n + 1` when no product
reaches `n + 1`. -/
theorem mul_div_roundtrip_exact (v : SPLVector3 ℤ) (s : ℤ) (hs : s ≠ 0) {n : ℕ}
    (w : SPLVector3 (Fin (n + 1))) (t : Fin (n + 1)) (ht : t ≠ 0)
    (hx : w.x.val * t.val < n + 1) (hy : w.y.val * t.val < n + 1)
    (hz : w.z.val * t.val < n + 1) :
    (v.mul s).div s = Except.ok v
      ∧ @SPLVector3.div ℤ _ ⟨Int.tdiv⟩ _ (v.mul s) s = Except.ok v
      ∧ (w.mul t).div t = Except.ok w := by
  refine ⟨?_, ?_, ?_⟩
  · rcases v with ⟨x, y, z⟩
    simp only [SPLVector3.mul, SPLVector3.mulAssign, SPLVector3.div, SPLVector3.divAssign,
      SPLVector3.copy, ne_eq, hs, not_false_eq_true, if_true, Int.mul_ediv_cancel _ hs]
  · rcases v with ⟨x, y, z⟩
    have key : ∀ a : ℤ, @HDiv.hDiv ℤ ℤ ℤ (@instHDiv ℤ ⟨Int.tdiv⟩) (a * s) s = a :=
      fun a => Int.mul_tdiv_cancel a hs
    simp only [SPLVector3.mul, SPLVector3.mulAssign, SPLVector3.div, SPLVector3.divAssign,
      SPLVector3.copy, ne_eq, hs, not_false_eq_true, if_true, key]
  · have key : ∀ a : Fin (n + 1), a.val * t.val < n + 1 → a * t / t = a := by
      intro a ha
      apply Fin.ext
      have hb : 0 < t.val := Nat.pos_of_ne_zero (fun e => ht (Fin.ext e))
      show (a * t).val / t.val = a.val
      rw [Fin.val_mul, Nat.mod_eq_of_lt ha, Nat.mul_div_cancel _ hb]
    rcases w with ⟨x, y, z⟩
    simp only [SPLVector3.mul, SPLVector3.mulAssign, SPLVector3.div, SPLVector3.divAssign,
      SPLVector3.copy, ne_eq, ht, not_false_eq_true, if_true, key x hx, key y hy, key z hz]

/-- The integer vector `(-7,2,3)` scaled by `-5`, and the `SPLuint8` vector
`(100,7,0)` scaled by `2`, where no product reaches `256`. -/
theorem mul_div_roundtrip_exact_witness :
    ((-5 : ℤ) ≠ 0 ∧ (2 : SPLuint8) ≠ 0)
      ∧ ((SPLVector3.mk (-7) 2 3 : SPLVector3 ℤ).mul (-5)).div (-5)
        = Except.ok (SPLVector3.mk (-7) 2 3)
      ∧ @SPLVector3.div ℤ _ ⟨Int.tdiv⟩ _ ((SPLVector3.mk (-7) 2 3 : SPLVector3 ℤ).mul (-5)) (-5)
        = Except.ok (SPLVector3.mk (-7) 2 3)
      ∧ ((SPLVector3.mk 100 7 0 : SPLVector3 SPLuint8).mul 2).div 2
        = Except.ok (SPLVector3.mk 100 7 0) :=
  ⟨⟨by decide, by decide⟩,
    mul_div_roundtrip_exact (SPLVector3.mk (-7) 2 3) (-5) (by decide)
      (SPLVector3.mk 100 7 0 : SPLVector3 (Fin (255 + 1))) 2 (by decide) (by decide)
      (by decide) (by decide)⟩

end Scaling

/-! ## Components -/

section Components

open SPLVector3

/-- C13: for every vector `v` and index `i`, `v[i]` succeeds exactly when
`0 <= i <= 2` and then denotes the named component, `v[0]` being `v.x`,
`v[1]` being `v.y` and `v[2]` being `v.z`; for every other `i` the access
aborts on the bounds assertion.  As `v` is arbitrary this holds for a `v`
produced by a mutating operator as well. -/
theorem index_in_range {T : Type} (v : SPLVector3 T) (i : ℤ) :
    ((∃ t, v.index i = Except.ok t) ↔ (0 ≤ i ∧ i ≤ 2))
      ∧ v.index 0 = Except.ok v.x
      ∧ v.index 1 = Except.ok v.y
      ∧ v.index 2 = Except.ok v.z
      ∧ (v.index i = Except.error Assertion.indexInRange ↔ ¬ (0 ≤ i ∧ i ≤ 2)) := by
  refine ⟨?_, rfl, rfl, rfl, ?_⟩
  · by_cases h : 0 ≤ i ∧ i ≤ 2
    · refine ⟨fun _ => h, fun _ => ?_⟩
      unfold SPLVector3.index
      simp only [ge_iff_le, h, and_self, if_true]
      split_ifs <;> exact ⟨_, rfl⟩
    · refine ⟨?_, fun h2 => absurd h2 h⟩
      rintro ⟨t, ht⟩
      unfold SPLVector3.index at ht
      simp only [ge_iff_le, h, if_false] at ht
      cases ht
  · by_cases h : 0 ≤ i ∧ i ≤ 2
    · refine ⟨fun h2 => ?_, fun h2 => absurd h h2⟩
      unfold SPLVector3.index at h2
      simp only [ge_iff_le, h, and_self, if_true] at h2
      split_ifs at h2
    · refine ⟨fun _ => h, fun _ => ?_⟩
      unfold SPLVector3.index
      simp only [ge_iff_le, h, if_false]

/-- C14: for every 4-vector `(x,y,z,w)` of any scalar kind, the `SPLVector3`
constructed from it is exactly `(x,y,z)` and does not depend on `w`;
constructing from `Vector4(1,2,3,4)` yields `(1,2,3)`. -/
theorem ofVector4_discards_w {T : Type} (x y z w w2 : T) :
    ofVector4 (SPLVector4.mk x y z w) = SPLVector3.mk x y z
      ∧ ofVector4 (SPLVector4.mk x y z w) = ofVector4 (SPLVector4.mk x y z w2)
      ∧ ofVector4 (SPLVector4.mk 1 2 3 4 : SPLVector4 ℤ) = SPLVector3.mk 1 2 3 :=
  ⟨rfl, rfl, rfl⟩

end Components

/-! ## Square and length -/

section SquareLength

open SPLVector3

/-- C15: for every vector `v` of every scalar kind `T`, `square()` returns the
sum `x*x + y*y + z*z` of the squares of the component values taken as
numbers of `SPLieee64`, nothing being computed in the narrow type `T`, when
`POW2` squares the converted component as the spec has it; for an integer
vector that is the exact integer `x*x + y*y + z*z`, and `(1,2,3).square()`
is `14`. -/
theorem square_sum_of_squares {T D : Type} [LinearOrderedField D] [FloorRing D]
    (E : Ieee T D) (hP : ∀ a, E.POW2 a = specPOW2 E.widen a) (v : SPLVector3 T)
    (sqrt : D → D) (eps : D) (w : SPLVector3 ℤ) :
    v.square E
        = E.widen v.x * E.widen v.x + E.widen v.y * E.widen v.y + E.widen v.z * E.widen v.z
      ∧ w.square (int32Kind sqrt eps) = ((w.x * w.x + w.y * w.y + w.z * w.z : ℤ) : D) := by
  constructor
  · simp only [SPLVector3.square, hP, specPOW2]
  · simp only [SPLVector3.square, int32Kind]
    push_cast
    ring

/-- The `SPLVector3i` vectors `(1,2,3)`, whose square is `14`, and
`(65536,0,0)`, whose square `2^32` is beyond 32 bits. -/
theorem square_sum_of_squares_witness :
    (∀ a, (int32Kind Real.sqrt (1 / 1000000)).POW2 a
        = specPOW2 (int32Kind Real.sqrt (1 / 1000000)).widen a)
      ∧ (SPLVector3.mk 1 2 3 : SPLVector3 ℤ).square (int32Kind Real.sqrt (1 / 1000000)) = 14
      ∧ (SPLVector3.mk 65536 0 0 : SPLVector3 ℤ).square (int32Kind Real.sqrt (1 / 1000000))
        = 4294967296 := by
  have hP : ∀ a, (int32Kind Real.sqrt (1 / 1000000)).POW2 a
      = specPOW2 (int32Kind Real.sqrt (1 / 1000000)).widen a := by
    intro a
    simp [int32Kind, specPOW2]
  refine ⟨hP, ?_, ?_⟩
  · rw [(square_sum_of_squares _ hP (SPLVector3.mk 1 2 3) Real.sqrt (1 / 1000000)
      (SPLVector3.mk 1 2 3)).1]
    simp only [int32Kind]
    norm_num
  · rw [(square_sum_of_squares _ hP (SPLVector3.mk 65536 0 0) Real.sqrt (1 / 1000000)
      (SPLVector3.mk 65536 0 0)).2]
    norm_num

/-- C16 as stated fails at `(1,1,0)`: with the square root rounded to double
precision, `square()` is `2` and `length()` returns
`6369051672525773 / 2^52`, whose product with itself is not `2`. -/
theorem length_squared_ne_square :
    (SPLVector3.mk 1 1 0 : SPLVector3 ℝ).square
        (exactKind (specSQRT Real.sqrt) (1 / 1000000)) = 2
      ∧ (SPLVector3.mk 1 1 0 : SPLVector3 ℝ).length
          (exactKind (specSQRT Real.sqrt) (1 / 1000000))
        = Except.ok (6369051672525773 / 4503599627370496)
      ∧ (6369051672525773 / 4503599627370496 : ℝ) * (6369051672525773 / 4503599627370496)
        ≠ 2 := by
  have hsq : (SPLVector3.mk 1 1 0 : SPLVector3 ℝ).square
      (exactKind (specSQRT Real.sqrt) (1 / 1000000)) = 2 := by
    rw [square_exactKind]
    norm_num
  have h2lo : (1 : ℝ) ≤ Real.sqrt 2 := by
    rw [Real.le_sqrt' (by norm_num)]
    norm_num
  have h2hi : Real.sqrt 2 < 2 := by
    rw [Real.sqrt_lt' (by norm_num)]
    norm_num
  have hr : specSQRT Real.sqrt (2 : ℝ) = 6369051672525773 / 4503599627370496 := by
    unfold specSQRT
    rw [roundBinary_eq 53 (-1022) (Real.sqrt 2) 0 6369051672525773
      (by rw [abs_of_pos (by linarith)]; simp [h2lo])
      (by rw [abs_of_pos (by linarith)]; simpa using h2hi) (by norm_num)
      (by
        have e : ((0 : ℤ) - (((53 : ℕ) : ℤ) - 1)) = -52 := by norm_num
        rw [e, abs_lt]
        have hlo : (6369051672525773 - 1 / 2 : ℝ) / 4503599627370496 < Real.sqrt 2 := by
          rw [Real.lt_sqrt (by norm_num)]
          norm_num
        have hhi : Real.sqrt 2 < (6369051672525773 + 1 / 2 : ℝ) / 4503599627370496 := by
          rw [Real.sqrt_lt' (by norm_num)]
          norm_num
        have hp : ((2 : ℝ) ^ (-52 : ℤ)) = 1 / 4503599627370496 := by norm_num
        rw [hp]
        rw [div_lt_iff₀ (by norm_num)] at hlo
        rw [lt_div_iff₀ (by norm_num)] at hhi
        constructor
        · push_cast
          linarith
        · push_cast
          linarith)]
    norm_num
  refine ⟨hsq, ?_, by norm_num⟩
  simp only [SPLVector3.length, hsq]
  have h0 : (exactKind (specSQRT Real.sqrt) (1 / 1000000)).SQRT 2
      = 6369051672525773 / 4503599627370496 := hr
  rw [h0]
  norm_num

/-- C16, amended: for every vector `v` whose components are numbers,
`length()` never aborts: `square()` is not negative, so neither of the two
assertions fails, and the value returned is the square root of `square()`
rounded to double precision, which is not negative.
`length()*length() == square()` holds when that square root is a double
itself; otherwise `length()` is within the `2^53`-th part of the square root
(in the normal range).  `POW2` and `SQRT` are taken as the spec has them. -/
theorem length_never_aborts {T : Type} (E : Ieee T ℝ)
    (hP : ∀ a, E.POW2 a = specPOW2 E.widen a)
    (hS : ∀ d, E.SQRT d = specSQRT Real.sqrt d) (v : SPLVector3 T) :
    0 ≤ v.square E
      ∧ v.length E = Except.ok (specSQRT Real.sqrt (v.square E))
      ∧ 0 ≤ specSQRT Real.sqrt (v.square E)
      ∧ (specSQRT Real.sqrt (v.square E) = Real.sqrt (v.square E) →
          specSQRT Real.sqrt (v.square E) * specSQRT Real.sqrt (v.square E) = v.square E)
      ∧ ((2 : ℝ) ^ (-1022 : ℤ) ≤ Real.sqrt (v.square E) →
          |specSQRT Real.sqrt (v.square E) - Real.sqrt (v.square E)|
            ≤ Real.sqrt (v.square E) / 2 ^ 53) := by
  have hsq : 0 ≤ v.square E := by
    simp only [SPLVector3.square, hP, specPOW2]
    have h1 := mul_self_nonneg (E.widen v.x)
    have h2 := mul_self_nonneg (E.widen v.y)
    have h3 := mul_self_nonneg (E.widen v.z)
    linarith
  have h0 : 0 ≤ specSQRT Real.sqrt (v.square E) :=
    roundBinary_nonneg 53 (-1022) _ (Real.sqrt_nonneg _)
  refine ⟨hsq, ?_, h0, ?_, ?_⟩
  · simp only [SPLVector3.length, ge_iff_le, hsq, hS, h0, if_true]
  · intro h
    rw [h]
    exact Real.mul_self_sqrt hsq
  · intro h
    have habs : |Real.sqrt (v.square E)| = Real.sqrt (v.square E) :=
      abs_of_nonneg (Real.sqrt_nonneg _)
    have hb := roundBinary_error_rel 53 (-1022) (Real.sqrt (v.square E))
      (by rw [habs]; exact h)
    rw [habs] at hb
    exact hb

/-- The real vector `(3,4,0)`: with the square root rounded to double
precision its length is `5`, and `5 * 5` is its square. -/
theorem length_never_aborts_witness :
    ((∀ a, (exactKind (specSQRT Real.sqrt) (1 / 1000000)).POW2 a
          = specPOW2 (exactKind (specSQRT Real.sqrt) (1 / 1000000)).widen a)
        ∧ (∀ d, (exactKind (specSQRT Real.sqrt) (1 / 1000000)).SQRT d
          = specSQRT Real.sqrt d))
      ∧ (SPLVector3.mk 3 4 0 : SPLVector3 ℝ).length
          (exactKind (specSQRT Real.sqrt) (1 / 1000000)) = Except.ok 5
      ∧ (5 : ℝ) * 5
        = (SPLVector3.mk 3 4 0 : SPLVector3 ℝ).square
            (exactKind (specSQRT Real.sqrt) (1 / 1000000)) := by
  have hsq : (SPLVector3.mk 3 4 0 : SPLVector3 ℝ).square
      (exactKind (specSQRT Real.sqrt) (1 / 1000000)) = 25 := by
    rw [square_exactKind]
    norm_num
  have h25 : Real.sqrt 25 = 5 := by
    rw [Real.sqrt_eq_iff_mul_self_eq_of_pos (by norm_num)]
    norm_num
  have hr : specSQRT Real.sqrt (25 : ℝ) = 5 := by
    unfold specSQRT
    rw [h25, roundBinary_eq 53 (-1022) (5 : ℝ) 2 5629499534213120
      (by rw [abs_of_pos (by norm_num)]; norm_num)
      (by rw [abs_of_pos (by norm_num)]; norm_num) (by norm_num)
      (by rw [abs_lt]; constructor <;> norm_num)]
    norm_num
  have h := length_never_aborts (exactKind (specSQRT Real.sqrt) (1 / 1000000))
    (fun _ => rfl) (fun _ => rfl) (SPLVector3.mk 3 4 0)
  rw [hsq, hr] at h
  refine ⟨⟨fun _ => rfl, fun _ => rfl⟩, h.2.1, ?_⟩
  rw [hsq]
  norm_num

end SquareLength

/-! ## Vector space operations -/

section VectorSpace

open SPLVector3

/-- C18: vectors form an abelian group under `+`, with the default-constructed
vector `(0,0,0)` as identity and unary minus as inverse, all per component:
`a + b == b + a`, `(a + b) + c == a + (b + c)`, `a + SPLVector3() == a`,
`a + (-a) == SPLVector3()`, `a - b == a + (-b)` and `(a + b) - b == a`, for
every component type that is an abelian group itself: exact numbers and
wrapping unsigned integers such as `SPLuint8`, where `(200,0,0) + (100,0,0)`
is `(44,0,0)`. -/
theorem add_abelian_group {T : Type} [AddCommGroup T] (a b c : SPLVector3 T) :
    a.add b = b.add a
      ∧ (a.add b).add c = a.add (b.add c)
      ∧ a.add SPLVector3.new = a
      ∧ a.add a.neg = SPLVector3.new
      ∧ a.sub b = a.add b.neg
      ∧ (a.add b).sub b = a
      ∧ a.add b = SPLVector3.mk (a.x + b.x) (a.y + b.y) (a.z + b.z)
      ∧ (SPLVector3.mk 200 0 0 : SPLVector3 SPLuint8).add (SPLVector3.mk 100 0 0)
        = SPLVector3.mk 44 0 0 := by
  rcases a with ⟨ax, ay, az⟩
  rcases b with ⟨bx, b_y, bz⟩
  rcases c with ⟨cx, cy, cz⟩
  refine ⟨?_, ?_, ?_, ?_, ?_, ?_, rfl, by decide⟩ <;>
    simp only [SPLVector3.add, SPLVector3.addAssign, SPLVector3.sub, SPLVector3.subAssign,
      SPLVector3.neg, SPLVector3.copy, SPLVector3.new, SPLVector3.mk.injEq] <;>
    refine ⟨?_, ?_, ?_⟩ <;> abel

/-- C19: both orders of scalar scaling agree: for every scalar `s` and vector
`v` of the same component type, whose product commutes, the non-member
`s * v` equals the member `v * s`, and both equal `(s*v.x, s*v.y, s*v.z)`. -/
theorem scalarMul_eq_mul {T : Type} [CommMagma T] (s : T) (v : SPLVector3 T) :
    scalarMul s v = v.mul s
      ∧ scalarMul s v = SPLVector3.mk (s * v.x) (s * v.y) (s * v.z)
      ∧ v.mul s = SPLVector3.mk (s * v.x) (s * v.y) (s * v.z) := by
  have h : v.mul s = SPLVector3.mk (s * v.x) (s * v.y) (s * v.z) := by
    simp only [SPLVector3.mul, SPLVector3.mulAssign, SPLVector3.copy, mul_comm s]
  exact ⟨h.symm, rfl, h⟩

/-- C20: for all vectors `a` and `b`, the dot product `a * b` equals the sum
of the per-component products `a.x*b.x + a.y*b.y + a.z*b.z`, computed in the
component type `T`: `(1,2,3) * (4,5,6)` is `32` for integers, and
`(16,0,0) * (16,0,0)` is `0` for `SPLuint8`, where `256` wraps. -/
theorem dot_sum_of_products {T : Type} [Add T] [Mul T] (a b : SPLVector3 T) :
    a.dot b = a.x * b.x + a.y * b.y + a.z * b.z
      ∧ (SPLVector3.mk 1 2 3 : SPLVector3 ℤ).dot (SPLVector3.mk 4 5 6) = 32
      ∧ (SPLVector3.mk 16 0 0 : SPLVector3 SPLuint8).dot (SPLVector3.mk 16 0 0) = 0 :=
  ⟨rfl, by decide, by decide⟩

end VectorSpace

/-! ## The identifier registry -/

section Registry

/-- C21: no two enumerators of `m_SPLenum` have the same numeric value: ids
never collide across or within partitions, and no `*_MIN` or `*_MAX`
sentinel equals a named id. -/
theorem m_SPLenum_nodup : m_SPLenum.Nodup ∧ m_SPLenum.length = 59 := by
  decide

/-- C22: in each of the partitions `TYPE`, `FILEIO`, `CAMERA` and `MATERIAL`
the named ids are exactly the contiguous integers from `MIN+1` to `MAX-1` in
the order of declaration: `SPL_TYPE_UINT8 == SPL_TYPE_MIN + 1`,
`SPL_TYPE_MAX == SPL_TYPE_MIN + 15`, `SPL_FILEIO_MAX == SPL_FILEIO_MIN + 8`,
`SPL_CAMERA_MAX == SPL_CAMERA_MIN + 5`,
`SPL_MATERIAL_MAX == SPL_MATERIAL_MIN + 18`; every partition's `MAX` is
smaller than the next partition's `MIN`, the `MIN` values being
`0x0FFF0000 + k*0x2000`. -/
theorem partitions_contiguous :
    (typeIds = (List.range 14).map (fun k => SPL_TYPE_MIN + 1 + (k : ℤ))
        ∧ SPL_TYPE_UINT8 = SPL_TYPE_MIN + 1 ∧ SPL_TYPE_MAX = SPL_TYPE_MIN + 15)
      ∧ (fileioIds = (List.range 7).map (fun k => SPL_FILEIO_MIN + 1 + (k : ℤ))
        ∧ SPL_FILEIO_MAX = SPL_FILEIO_MIN + 8)
      ∧ (cameraIds = (List.range 4).map (fun k => SPL_CAMERA_MIN + 1 + (k : ℤ))
        ∧ SPL_CAMERA_MAX = SPL_CAMERA_MIN + 5)
      ∧ (materialIds = (List.range 17).map (fun k => SPL_MATERIAL_MIN + 1 + (k : ℤ))
        ∧ SPL_MATERIAL_MAX = SPL_MATERIAL_MIN + 18)
      ∧ (SPL_TYPE_MAX < SPL_FILEIO_MIN ∧ SPL_FILEIO_MAX < SPL_CAMERA_MIN
        ∧ SPL_CAMERA_MAX < SPL_MATERIAL_MIN ∧ SPL_MATERIAL_MAX < SPL_LIGHT_MIN)
      ∧ [SPL_TYPE_MIN, SPL_FILEIO_MIN, SPL_CAMERA_MIN, SPL_MATERIAL_MIN, SPL_LIGHT_MIN]
        = (List.range 5).map (fun k => 0x0FFF0000 + (k : ℤ) * 0x2000) := by
  decide

/-- C23, the code at the light-kind ids: `m_SPLenum` declares no
`SPL_LIGHT_MAX`, so `SPL_LIGHT_POIN`, `SPL_LIGHT_DIRE` and `SPL_LIGHT_SPOT`
lie above every declared `*_MAX` sentinel, between the sentinels of no
partition, and a consumer that rejects every id outside all `MIN..MAX`
ranges rejects exactly these three of the named ids. -/
theorem light_ids_outside_ranges :
    (knownId SPL_LIGHT_POIN = false ∧ knownId SPL_LIGHT_DIRE = false
        ∧ knownId SPL_LIGHT_SPOT = false)
      ∧ (∀ r ∈ sentinelRanges, r.2 < SPL_LIGHT_MIN)
      ∧ namedIds.filter (fun id => !knownId id) = lightIds
      ∧ lightIds = [SPL_LIGHT_MIN + 1, SPL_LIGHT_MIN + 2, SPL_LIGHT_MIN + 3] := by
  decide

end Registry

/-! ## Further properties of the operations -/

section Further

open SPLVector3

/-- C24: Lagrange identity: for all vectors `a` and `b` with exact component
arithmetic (a commutative ring), the dot product of `a.crossProduct(b)` with
itself equals `(a*a)*(b*b) - (a*b)*(a*b)`; consequently `a.crossProduct(a)`
is the zero vector. -/
theorem crossProduct_lagrange {T : Type} [CommRing T] (a b : SPLVector3 T) :
    (a.crossProduct b).dot (a.crossProduct b)
        = a.dot a * b.dot b - a.dot b * a.dot b
      ∧ a.crossProduct a = SPLVector3.mk 0 0 0 := by
  constructor
  · simp only [SPLVector3.crossProduct, SPLVector3.dot, SPLVector3.new]
    ring
  · simp only [SPLVector3.crossProduct, SPLVector3.new, SPLVector3.mk.injEq]
    refine ⟨?_, ?_, ?_⟩ <;> ring

/-- C25: the product `SPLMatrix4 * SPLVector3` depends only on the upper-left
3x3 block of the matrix: for every vector `v` and any two matrices `m1`, `m2`
that agree on the `x`, `y`, `z` components of their columns `x`, `y`, `z`,
`m1 * v == m2 * v`; the fourth column `m.w` and all `.w` components never
influence the result. -/
theorem matrixMul_upper_left_block {T : Type} [Zero T] [Add T] [Mul T]
    (m1 m2 : SPLMatrix4 T) (v : SPLVector3 T)
    (hx : ofVector4 m1.x = ofVector4 m2.x) (hy : ofVector4 m1.y = ofVector4 m2.y)
    (hz : ofVector4 m1.z = ofVector4 m2.z) :
    matrixMul m1 v = matrixMul m2 v := by
  simp only [ofVector4, SPLVector3.mk.injEq] at hx hy hz
  obtain ⟨hxx, hxy, hxz⟩ := hx
  obtain ⟨hyx, hyy, hyz⟩ := hy
  obtain ⟨hzx, hzy, hzz⟩ := hz
  simp only [matrixMul, hxx, hxy, hxz, hyx, hyy, hyz, hzx, hzy, hzz]

/-- Two integer matrices with the same upper-left block and different fourth
column and fourth row, applied to `(1,2,3)`. -/
theorem matrixMul_upper_left_block_witness :
    (ofVector4 (SPLVector4.mk 1 2 3 10 : SPLVector4 ℤ) = ofVector4 (SPLVector4.mk 1 2 3 (-7))
        ∧ ofVector4 (SPLVector4.mk 4 5 6 20 : SPLVector4 ℤ) = ofVector4 (SPLVector4.mk 4 5 6 0)
        ∧ ofVector4 (SPLVector4.mk 7 8 9 30 : SPLVector4 ℤ) = ofVector4 (SPLVector4.mk 7 8 9 1))
      ∧ matrixMul
          ({ x := SPLVector4.mk 1 2 3 10
             y := SPLVector4.mk 4 5 6 20
             z := SPLVector4.mk 7 8 9 30
             w := SPLVector4.mk 11 12 13 40 } : SPLMatrix4 ℤ) (SPLVector3.mk 1 2 3)
        = matrixMul
          ({ x := SPLVector4.mk 1 2 3 (-7)
             y := SPLVector4.mk 4 5 6 0
             z := SPLVector4.mk 7 8 9 1
             w := SPLVector4.mk 0 0 0 1 } : SPLMatrix4 ℤ) (SPLVector3.mk 1 2 3) :=
  ⟨⟨rfl, rfl, rfl⟩, matrixMul_upper_left_block _ _ _ rfl rfl rfl⟩

/-- C26: with exact real arithmetic, `length() == 0` holds if and only if the
vector is `(0,0,0)`; hence for `L > 0` `normalize(L)` takes its early return,
leaving the receiver as it is, exactly for the zero vector, and rescales
every non-zero vector: there `length()` is not `0` and the run overwrites the
receiver with the single-precision values of `v.x*L/len`, `v.y*L/len`,
`v.z*L/len` before it returns or stops at the postcondition. -/
theorem length_zero_iff (eps : ℝ) (v : SPLVector3 ℝ) (L : ℝ) (hL : 0 < L) :
    (v.length (exactKind Real.sqrt eps) = Except.ok 0 ↔ v = SPLVector3.mk 0 0 0)
      ∧ (v = SPLVector3.mk 0 0 0 →
          v.normalize (exactKind Real.sqrt eps) L = Outcome.done v)
      ∧ (v ≠ SPLVector3.mk 0 0 0 →
          ∃ len, v.length (exactKind Real.sqrt eps) = Except.ok len ∧ len ≠ 0
            ∧ (v.normalize (exactKind Real.sqrt eps) L
                = Outcome.done
                    (SPLVector3.mk (roundBinary 24 (-126) (v.x * L / len))
                      (roundBinary 24 (-126) (v.y * L / len))
                      (roundBinary 24 (-126) (v.z * L / len)))
              ∨ v.normalize (exactKind Real.sqrt eps) L
                = Outcome.abort Assertion.lengthReached
                    (SPLVector3.mk (roundBinary 24 (-126) (v.x * L / len))
                      (roundBinary 24 (-126) (v.y * L / len))
                      (roundBinary 24 (-126) (v.z * L / len))))) := by
  have hzero : (SPLVector3.mk 0 0 0 : SPLVector3 ℝ).length (exactKind Real.sqrt eps)
      = Except.ok 0 := by
    rw [length_exactKind_real]
    simp
  refine ⟨⟨fun h => ?_, fun h => ?_⟩, fun h => ?_, fun h => ?_⟩
  · by_contra hv
    have hs := sumsq_pos v hv
    rw [length_exactKind_real] at h
    have h0 : Real.sqrt (v.x * v.x + v.y * v.y + v.z * v.z) = 0 := Except.ok.inj h
    exact absurd h0 (Real.sqrt_pos.mpr hs).ne.symm
  · rw [h]
    exact hzero
  · subst h
    unfold SPLVector3.normalize
    simp only [gt_iff_lt, hL, if_true, hzero]
  · have hs := sumsq_pos v h
    exact ⟨_, length_exactKind_real eps v, (Real.sqrt_pos.mpr hs).ne.symm,
      normalize_reached_exactKind_real eps v h L hL⟩

/-- The real vectors `(0,0,0)` and `(0,0,2)`, the target length `1` and the
tolerance `1e-6`. -/
theorem length_zero_iff_witness :
    (0 : ℝ) < 1
      ∧ (SPLVector3.mk 0 0 0 : SPLVector3 ℝ).normalize (exactKind Real.sqrt (1 / 1000000)) 1
        = Outcome.done (SPLVector3.mk 0 0 0)
      ∧ ((SPLVector3.mk 0 0 2 : SPLVector3 ℝ).length (exactKind Real.sqrt (1 / 1000000))
          = Except.ok 0 ↔ (SPLVector3.mk 0 0 2 : SPLVector3 ℝ) = SPLVector3.mk 0 0 0)
      ∧ ∃ len, (SPLVector3.mk 0 0 2 : SPLVector3 ℝ).length (exactKind Real.sqrt (1 / 1000000))
            = Except.ok len ∧ len ≠ 0
          ∧ ((SPLVector3.mk 0 0 2 : SPLVector3 ℝ).normalize
                (exactKind Real.sqrt (1 / 1000000)) 1
              = Outcome.done
                  (SPLVector3.mk (roundBinary 24 (-126) (0 * 1 / len))
                    (roundBinary 24 (-126) (0 * 1 / len))
                    (roundBinary 24 (-126) (2 * 1 / len)))
            ∨ (SPLVector3.mk 0 0 2 : SPLVector3 ℝ).normalize
                (exactKind Real.sqrt (1 / 1000000)) 1
              = Outcome.abort Assertion.lengthReached
                  (SPLVector3.mk (roundBinary 24 (-126) (0 * 1 / len))
                    (roundBinary 24 (-126) (0 * 1 / len))
                    (roundBinary 24 (-126) (2 * 1 / len)))) :=
  ⟨by norm_num,
    (length_zero_iff (1 / 1000000) (SPLVector3.mk 0 0 0) 1 (by norm_num)).2.1 rfl,
    (length_zero_iff (1 / 1000000) (SPLVector3.mk 0 0 2) 1 (by norm_num)).1,
    (length_zero_iff (1 / 1000000) (SPLVector3.mk 0 0 2) 1 (by norm_num)).2.2 (by simp)⟩

end Further

end SPL
